import Mathlib

/-!
# Shallow embedding of the `jspsych/dashboard` incremental sync engine

This file embeds, in Lean 4, the data model and operations of the
`jspsych/dashboard` repository (Python sources `src/models.py`, `src/database.py`,
`src/data_pipeline.py`, `src/github_client.py`) and proves properties of the
embedded definitions.

Modelling conventions:
* Python `str` is Lean `String`; all string operations are implemented over
  `String.data : List Char` so that every definition kernel-reduces.
  Python string comparison (`<`, `<=`) is lexicographic by code point, which is
  the `LinearOrder (List Char)` order on `String.data`.
* Python `Optional[...]` is `Option ...`; Python truthiness of an optional
  string (`None` and `""` are falsy) is `optStrTruthy`.
* SQLite tables are lists of row structures; `INSERT OR REPLACE` is modelled as
  prepending the new row after removing every row that conflicts with it on the
  primary key or on a `UNIQUE` column, which is exactly SQLite's conflict
  resolution for these schemas.
* Code that can raise in Python is `Except String` / `Option` valued; code whose
  exceptions Python catches locally (e.g. the per-record `try/except` in the
  upsert helpers, or the transport errors caught inside `fetch_api`) is total.
* `datetime.utcnow()` is an input: functions that read the wall clock take a
  `now : String` (or the run's completion reading) as an explicit argument.
* The remote API is an oracle (`Env`): each `fetch_api` endpoint's outcome is a
  field of `Env`; `none` models a transport error or non-2xx response (in which
  case `fetch_api` returns `None`).  `fetch_api` itself follows pagination
  until exhausted and returns the full joined list, so the oracle directly
  provides that joined list.
-/

namespace Dashboard

/-! ## Python string primitives -/

/-- Truthiness of a Python `Optional[str]`: `None` and `""` are falsy. -/
def optStrTruthy : Option String → Bool
  | none => false
  | some s => !s.data.isEmpty

/-- Python `a <= b` on strings: lexicographic by code point. -/
def pyStrLe (a b : String) : Bool := decide (a.data ≤ b.data)

/-- Python `a < b` on strings: lexicographic by code point. -/
def pyStrLt (a b : String) : Bool := decide (a.data < b.data)

/-- Lower-case one character.  `str.lower` restricted to ASCII, which is all the
classification vocabulary needs; non-ASCII characters are left unchanged. -/
def lowerChar (c : Char) : Char :=
  if 65 ≤ c.toNat ∧ c.toNat ≤ 90 then Char.ofNat (c.toNat + 32) else c

/-- Python `s.lower()` (ASCII). -/
def pyLower (s : String) : String := ⟨s.data.map lowerChar⟩

/-- Python `needle in haystack` on strings: substring containment. -/
def pyInStr (needle hay : String) : Bool := decide (needle.data <:+: hay.data)

/-- Python `x in xs` for a list of strings: membership by equality. -/
def pyInList (x : String) (xs : List String) : Bool := xs.any (fun y => y.data = x.data)

/-! ## JSON encoding (`json.dumps` / `json.loads` for lists of strings)

`DatabaseHelper.serialize_labels` / `deserialize_labels` (and the `assignees`
twins) call `json.dumps` / `json.loads` on lists of strings.  The encoder below
is `json.dumps` with its defaults (`ensure_ascii=True`, separator `", "`); the
decoder is `json.loads` restricted to JSON arrays of strings, which is the only
shape the serializer ever produces.  (On any other input the decoder returns
`none`, where Python would return a non-list value; the repository only ever
decodes what it encoded.) -/

/-- Lower-case hex digit of `n % 16`. -/
def hexChar (n : Nat) : Char :=
  if n % 16 < 10 then Char.ofNat (48 + n % 16) else Char.ofNat (87 + n % 16)

/-- Four lower-case hex digits of `n < 0x10000` (the payload of a `\uXXXX` escape). -/
def hex4 (n : Nat) : List Char :=
  [hexChar (n / 4096), hexChar (n / 256), hexChar (n / 16), hexChar n]

/-- `json.dumps` escaping of one character (with `ensure_ascii=True`): `"`
and `\` get a backslash escape, the short control escapes are used for
`\b \f \n \r \t`, every other character outside `0x20`–`0x7e` becomes `\uXXXX`
(as a surrogate pair beyond the BMP). -/
def jsonEscapeChar (c : Char) : List Char :=
  if c = '"' then ['\\', '"']
  else if c = '\\' then ['\\', '\\']
  else if c = '\x08' then ['\\', 'b']
  else if c = '\x0c' then ['\\', 'f']
  else if c = '\n' then ['\\', 'n']
  else if c = '\r' then ['\\', 'r']
  else if c = '\t' then ['\\', 't']
  else if c.toNat < 0x20 ∨ (0x7e < c.toNat ∧ c.toNat ≤ 0xffff) then
    '\\' :: 'u' :: hex4 c.toNat
  else if c.toNat ≤ 0x7e then [c]
  else
    ('\\' :: 'u' :: hex4 (0xd800 + (c.toNat - 0x10000) / 0x400)) ++
      ('\\' :: 'u' :: hex4 (0xdc00 + (c.toNat - 0x10000) % 0x400))

/-- Escape a whole string body. -/
def jsonEscapeStr : List Char → List Char
  | [] => []
  | c :: rest => jsonEscapeChar c ++ jsonEscapeStr rest

/-- One JSON string literal: `"` body `"`. -/
def jsonItemChars (s : String) : List Char := '"' :: (jsonEscapeStr s.data ++ ['"'])

/-- The tail of a dumped array: `, item`* `]`. -/
def jsonDumpsRest : List String → List Char
  | [] => [']']
  | s :: rest => ',' :: ' ' :: (jsonItemChars s ++ jsonDumpsRest rest)

/-- `json.dumps` of a list of strings with the default `", "` separator. -/
def jsonDumpsList : List String → String
  | [] => "[]"
  | s :: rest => ⟨'[' :: (jsonItemChars s ++ jsonDumpsRest rest)⟩

/-- JSON whitespace. -/
def isJsonWs (c : Char) : Bool := c = ' ' || c = '\t' || c = '\n' || c = '\r'

/-- Is the remainder all whitespace (what may follow the closing `]`)? -/
def allJsonWs (l : List Char) : Bool := l.all isJsonWs

/-- Hex digit value (both cases accepted, as `json.loads` does). -/
def fromHexChar (c : Char) : Option Nat :=
  if 48 ≤ c.toNat ∧ c.toNat ≤ 57 then some (c.toNat - 48)
  else if 97 ≤ c.toNat ∧ c.toNat ≤ 102 then some (c.toNat - 87)
  else if 65 ≤ c.toNat ∧ c.toNat ≤ 70 then some (c.toNat - 55)
  else none

/-- Combine four hex digits into their value. -/
def hex4val (a b c d : Char) : Option Nat := do
  let ha ← fromHexChar a
  let hb ← fromHexChar b
  let hc ← fromHexChar c
  let hd ← fromHexChar d
  pure (ha * 4096 + hb * 256 + hc * 16 + hd)

/-- Decode one `uXXXX` escape payload (the part after `\u`), recombining a
high surrogate with the following `\uXXXX` low surrogate exactly as
`json.loads` does.  A lone surrogate escape is rejected; `json.dumps` never
produces one. -/
def parseUnicodeEscape : List Char → Option (Char × List Char)
  | a :: b :: c :: d :: rest2 =>
    match hex4val a b c d with
    | none => none
    | some v =>
      if v < 0xd800 ∨ 0xe000 ≤ v then some (Char.ofNat v, rest2)
      else if v < 0xdc00 then
        match rest2 with
        | s1 :: s2 :: a2 :: b2 :: c2 :: d2 :: rest3 =>
          if s1 = '\\' ∧ s2 = 'u' then
            match hex4val a2 b2 c2 d2 with
            | some w =>
              if 0xdc00 ≤ w ∧ w < 0xe000 then
                some (Char.ofNat (0x10000 + (v - 0xd800) * 0x400 + (w - 0xdc00)), rest3)
              else none
            | none => none
          else none
        | _ => none
      else none
  | _ => none

/-- Decode one escape sequence (the part after the backslash), returning the
decoded character and the remaining input. -/
def parseEscape : List Char → Option (Char × List Char)
  | [] => none
  | e :: rest =>
    if e = '"' then some ('"', rest)
    else if e = '\\' then some ('\\', rest)
    else if e = '/' then some ('/', rest)
    else if e = 'b' then some ('\x08', rest)
    else if e = 'f' then some ('\x0c', rest)
    else if e = 'n' then some ('\n', rest)
    else if e = 'r' then some ('\r', rest)
    else if e = 't' then some ('\t', rest)
    else if e = 'u' then parseUnicodeEscape rest
    else none

/-- A successful escape decode consumes at least one character. -/
theorem parseUnicodeEscape_length {l rest : List Char} {ch : Char}
    (h : parseUnicodeEscape l = some (ch, rest)) : rest.length < l.length := by
  match l with
  | [] | [a] | [a, b] | [a, b, c] => simp [parseUnicodeEscape] at h
  | a :: b :: c :: d :: r2 =>
    simp only [parseUnicodeEscape] at h
    match hv : hex4val a b c d with
    | none => rw [hv] at h; simp at h
    | some v =>
      rw [hv] at h
      simp only [] at h
      split_ifs at h
      · simp only [Option.some.injEq, Prod.mk.injEq] at h
        obtain ⟨-, rfl⟩ := h
        simp
        omega
      · match r2 with
        | [] | [x1] | [x1, x2] | [x1, x2, x3] | [x1, x2, x3, x4] | [x1, x2, x3, x4, x5] =>
          simp at h
        | s1 :: s2 :: a2 :: b2 :: c2 :: d2 :: r3 =>
          simp only [] at h
          split_ifs at h
          match hv2 : hex4val a2 b2 c2 d2 with
          | none => rw [hv2] at h; simp at h
          | some w =>
            rw [hv2] at h
            simp only [] at h
            split_ifs at h
            simp only [Option.some.injEq, Prod.mk.injEq] at h
            obtain ⟨-, rfl⟩ := h
            simp
            omega

/-- A successful escape decode consumes at least one character. -/
theorem parseEscape_length {l rest : List Char} {ch : Char}
    (h : parseEscape l = some (ch, rest)) : rest.length < l.length := by
  match l with
  | [] => simp [parseEscape] at h
  | e :: r =>
    simp only [parseEscape] at h
    split_ifs at h <;>
      first
      | (simp only [Option.some.injEq, Prod.mk.injEq] at h
         obtain ⟨-, rfl⟩ := h
         simp)
      | (simp at h)
      | (exact Nat.lt_trans (parseUnicodeEscape_length h) (by simp))

/-- The parser position inside the array body. -/
inductive JPos where
  /-- Inside a string literal, `acc` holding the decoded characters reversed. -/
  | inStr (acc : List Char)
  /-- After a completed string item: expecting `,` or `]`. -/
  | afterItem
  /-- After a `,`: expecting the `"` of the next string item. -/
  | afterComma
deriving Repr

/-- Scan the body of a JSON array of strings (everything after the opening
`[` once the first `"` has been consumed, threading the position). -/
def jsonScan (pos : JPos) (items : List (List Char)) (l : List Char) :
    Option (List (List Char)) :=
  match l with
  | [] => none
  | c :: rest =>
    match pos with
    | .inStr acc =>
      if c = '"' then jsonScan .afterItem (acc.reverse :: items) rest
      else if c = '\\' then
        match h : parseEscape rest with
        | none => none
        | some (ch, rest2) => jsonScan (.inStr (ch :: acc)) items rest2
      else jsonScan (.inStr (c :: acc)) items rest
    | .afterItem =>
      if isJsonWs c then jsonScan .afterItem items rest
      else if c = ',' then jsonScan .afterComma items rest
      else if c = ']' then (if allJsonWs rest then some items.reverse else none)
      else none
    | .afterComma =>
      if isJsonWs c then jsonScan .afterComma items rest
      else if c = '"' then jsonScan (.inStr []) items rest
      else none
termination_by l.length
decreasing_by
  · simp
  · exact Nat.lt_trans (parseEscape_length h) (by simp)
  · simp
  · simp
  · simp
  · simp
  · simp

/-- After the opening `[`: whitespace, then `]` (empty array) or the first string. -/
def jsonOpenArr : List Char → Option (List (List Char))
  | [] => none
  | c :: rest =>
    if isJsonWs c then jsonOpenArr rest
    else if c = ']' then if allJsonWs rest then some [] else none
    else if c = '"' then jsonScan (.inStr []) [] rest
    else none

/-- Leading whitespace, then the `[` opening the array. -/
def jsonTopArr : List Char → Option (List (List Char))
  | [] => none
  | c :: rest =>
    if isJsonWs c then jsonTopArr rest
    else if c = '[' then jsonOpenArr rest
    else none

/-- `json.loads` restricted to JSON arrays of strings (the only shape this
repository ever decodes); `none` models `json.JSONDecodeError`. -/
def jsonLoadsStrList (s : String) : Option (List String) :=
  (jsonTopArr s.data).map (·.map fun d => (⟨d⟩ : String))

/-! ## `models.py` — `DatabaseHelper` serialization and classification -/

/-- `DatabaseHelper.serialize_labels`: `json.dumps(labels) if labels else '[]'`. -/
def serialize_labels (labels : List String) : String :=
  if labels.isEmpty then "[]" else jsonDumpsList labels

/-- `DatabaseHelper.deserialize_labels`: `json.loads(labels_json) if labels_json
else []`, with `json.JSONDecodeError` caught and turned into `[]`. -/
def deserialize_labels (labels_json : String) : List String :=
  if labels_json.data.isEmpty then [] else (jsonLoadsStrList labels_json).getD []

/-- `DatabaseHelper.serialize_assignees` (same body as `serialize_labels`). -/
def serialize_assignees (assignees : List String) : String :=
  if assignees.isEmpty then "[]" else jsonDumpsList assignees

/-- `DatabaseHelper.deserialize_assignees` (same body as `deserialize_labels`). -/
def deserialize_assignees (assignees_json : String) : List String :=
  if assignees_json.data.isEmpty then [] else (jsonLoadsStrList assignees_json).getD []

/-- `DatabaseHelper.classify_pr_type`: label vocabulary first (case-insensitive,
exact membership), then title keywords (case-insensitive substring), default
`"feature"`. -/
def classify_pr_type (title : String) (labels : List String) : String :=
  let title_lower := pyLower title
  let labels_lower := labels.map pyLower
  if ["bug", "bugfix", "fix"].any (fun l => pyInList l labels_lower) then "bugfix"
  else if ["feature", "enhancement", "new-feature"].any (fun l => pyInList l labels_lower) then
    "feature"
  else if ["documentation", "docs"].any (fun l => pyInList l labels_lower) then "docs"
  else if ["maintenance", "refactor", "cleanup"].any (fun l => pyInList l labels_lower) then
    "maintenance"
  else if ["fix", "bug", "patch", "hotfix"].any (fun w => pyInStr w title_lower) then "bugfix"
  else if ["add", "feature", "implement", "new"].any (fun w => pyInStr w title_lower) then
    "feature"
  else if ["doc", "readme", "documentation"].any (fun w => pyInStr w title_lower) then "docs"
  else if ["refactor", "cleanup", "maintenance", "update"].any (fun w => pyInStr w title_lower)
    then "maintenance"
  else "feature"

/-- `DatabaseHelper.classify_issue_type`: label vocabulary first, then title
keywords, default `"question"`. -/
def classify_issue_type (title : String) (labels : List String) : String :=
  let title_lower := pyLower title
  let labels_lower := labels.map pyLower
  if ["bug", "error", "broken"].any (fun l => pyInList l labels_lower) then "bug"
  else if ["feature", "enhancement", "feature-request"].any (fun l => pyInList l labels_lower)
    then "feature"
  else if ["question", "help", "support"].any (fun l => pyInList l labels_lower) then "question"
  else if ["documentation", "docs"].any (fun l => pyInList l labels_lower) then "documentation"
  else if ["bug", "error", "broken", "issue", "problem"].any (fun w => pyInStr w title_lower)
    then "bug"
  else if ["feature", "request", "add", "implement"].any (fun w => pyInStr w title_lower) then
    "feature"
  else if ["how", "question", "?"].any (fun w => pyInStr w title_lower) then "question"
  else if ["doc", "documentation", "readme"].any (fun w => pyInStr w title_lower) then
    "documentation"
  else "question"

/-- `DatabaseHelper.get_priority_from_labels`: label vocabulary only, default
`"medium"`. -/
def get_priority_from_labels (labels : List String) : String :=
  let labels_lower := labels.map pyLower
  if ["critical", "urgent", "high-priority"].any (fun l => pyInList l labels_lower) then
    "critical"
  else if ["high", "important"].any (fun l => pyInList l labels_lower) then "high"
  else if ["medium", "normal"].any (fun l => pyInList l labels_lower) then "medium"
  else if ["low", "minor"].any (fun l => pyInList l labels_lower) then "low"
  else "medium"

/-! ### The breaking-change regular expressions

`DatabaseHelper.is_breaking_change` runs `re.search` with six fixed patterns
built from literals, `\s*`, `\s+` and one optional character.  The tiny matcher
below covers exactly those constructs.  Greedy matching of `\s*`/`\s+`/`x?` is
equivalent to the regex semantics for these patterns because every literal that
follows a whitespace atom starts with a non-whitespace character. -/

/-- Python `\s` (ASCII): space, `\t`, `\n`, `\r`, `\f`, `\v`. -/
def isPyWs (c : Char) : Bool :=
  c = ' ' || c = '\t' || c = '\n' || c = '\r' || c = '\x0c' || c = '\x0b'

/-- One atom of the fixed breaking-change patterns. -/
inductive RxAtom where
  | lit (s : List Char)
  | opt (c : Char)
  | ws0
  | ws1
deriving Repr

/-- Match a sequence of atoms against a prefix of `l`. -/
def rxAtomsMatchAt : List RxAtom → List Char → Bool
  | [], _ => true
  | .lit s :: ps, l => decide (s <+: l) && rxAtomsMatchAt ps (l.drop s.length)
  | .opt c :: ps, l =>
    match l with
    | c' :: rest => if c' = c then rxAtomsMatchAt ps rest else rxAtomsMatchAt ps (c' :: rest)
    | [] => rxAtomsMatchAt ps []
  | .ws0 :: ps, l => rxAtomsMatchAt ps (l.dropWhile isPyWs)
  | .ws1 :: ps, l =>
    match l with
    | c :: rest => isPyWs c && rxAtomsMatchAt ps (rest.dropWhile isPyWs)
    | [] => false

/-- `re.search`: does the pattern match at any position? -/
def rxSearch (p : List RxAtom) : List Char → Bool
  | [] => rxAtomsMatchAt p []
  | c :: rest => rxAtomsMatchAt p (c :: rest) || rxSearch p rest

/-- The six `breaking_patterns` of `DatabaseHelper.is_breaking_change`. -/
def breaking_patterns : List (List RxAtom) :=
  [[.lit "breaking".data, .ws0, .lit "change".data],
   [.lit "breaking".data, .ws0, .lit "api".data],
   [.lit "backward".data, .opt 's', .ws0, .lit "incompatible".data],
   [.lit "major".data, .ws0, .lit "version".data],
   [.lit "remove".data, .opt 'd', .ws1, .lit "deprecated".data],
   [.lit "api".data, .ws0, .lit "change".data]]

/-- `DatabaseHelper.is_breaking_change`: breaking label vocabulary, else any of
the six patterns against the lower-cased `f"{title} {body or ''}"`. -/
def is_breaking_change (title : String) (body : Option String) (labels : List String) : Bool :=
  let text_to_check := pyLower (title ++ " " ++ body.getD "")
  let labels_lower := labels.map pyLower
  if ["breaking", "breaking-change", "major"].any (fun l => pyInList l labels_lower) then true
  else breaking_patterns.any (fun p => rxSearch p text_to_check.data)

/-! ## `datetime` — the fragment `sync_incremental` uses

`sync_incremental` parses stored checkpoint strings with
`datetime.fromisoformat`, takes the `max`, and re-serializes with
`.isoformat()`.  The model below supports exactly the formats this program
reads and writes: `YYYY-MM-DD`, `YYYY-MM-DDTHH:MM:SS` and
`YYYY-MM-DDTHH:MM:SS.ffffff` (the output shapes of `datetime.isoformat`),
with basic range validation.  Any other string is unparsable (`none`), which
models the `ValueError` that `datetime.fromisoformat` raises. -/

structure PyDateTime where
  year : Nat
  month : Nat
  day : Nat
  hour : Nat
  minute : Nat
  second : Nat
  microsecond : Nat
deriving DecidableEq, Repr

/-- Python `datetime` comparison is lexicographic on the fields. -/
def PyDateTime.fields (d : PyDateTime) : List Nat :=
  [d.year, d.month, d.day, d.hour, d.minute, d.second, d.microsecond]

/-- Python `a < b` on datetimes. -/
def pyDateTimeLt (a b : PyDateTime) : Bool := decide (a.fields < b.fields)

/-- Python `max(a, b)`: returns `b` exactly when `b > a` (ties keep `a`). -/
def pymaxDT (a b : PyDateTime) : PyDateTime := if pyDateTimeLt a b then b else a

/-- Decimal digit character of `n % 10`. -/
def digitChar (n : Nat) : Char := Char.ofNat (48 + n % 10)

/-- Two-digit zero-padded decimal. -/
def pad2 (n : Nat) : List Char := [digitChar (n / 10), digitChar n]

/-- Four-digit zero-padded decimal. -/
def pad4 (n : Nat) : List Char :=
  [digitChar (n / 1000), digitChar (n / 100), digitChar (n / 10), digitChar n]

/-- Six-digit zero-padded decimal. -/
def pad6 (n : Nat) : List Char :=
  [digitChar (n / 100000), digitChar (n / 10000), digitChar (n / 1000),
   digitChar (n / 100), digitChar (n / 10), digitChar n]

/-- `datetime.isoformat`: `YYYY-MM-DDTHH:MM:SS` with `.ffffff` appended exactly
when the microsecond field is non-zero. -/
def PyDateTime.isoformat (d : PyDateTime) : String :=
  ⟨pad4 d.year ++ '-' :: pad2 d.month ++ '-' :: pad2 d.day ++
    'T' :: pad2 d.hour ++ ':' :: pad2 d.minute ++ ':' :: pad2 d.second ++
    (if d.microsecond = 0 then [] else '.' :: pad6 d.microsecond)⟩

/-- Decimal digit value of a character, if it is a digit. -/
def digitVal (c : Char) : Option Nat :=
  if 48 ≤ c.toNat ∧ c.toNat ≤ 57 then some (c.toNat - 48) else none

/-- Parse two decimal digits. -/
def parse2 (a b : Char) : Option Nat := do
  let x ← digitVal a
  let y ← digitVal b
  pure (10 * x + y)

/-- Parse four decimal digits. -/
def parse4 (a b c d : Char) : Option Nat := do
  let x ← parse2 a b
  let y ← parse2 c d
  pure (100 * x + y)

/-- Parse six decimal digits. -/
def parse6 (a b c d e f : Char) : Option Nat := do
  let x ← parse2 a b
  let y ← parse2 c d
  let z ← parse2 e f
  pure (10000 * x + 100 * y + z)

/-- Validate the parsed calendar/clock fields (simplified: days 1–31 for every
month; real `datetime` also knows month lengths, which no string this program
produces or stores ever exceeds). -/
def validDT (d : PyDateTime) : Bool :=
  decide (1 ≤ d.month ∧ d.month ≤ 12 ∧ 1 ≤ d.day ∧ d.day ≤ 31 ∧
    d.hour ≤ 23 ∧ d.minute ≤ 59 ∧ d.second ≤ 59 ∧ d.microsecond ≤ 999999)

/-- `datetime.fromisoformat` on the formats this program reads and writes;
`none` models the `ValueError` raised on anything else. -/
def fromisoformat (s : String) : Option PyDateTime :=
  match s.data with
  | [y1, y2, y3, y4, '-', m1, m2, '-', d1, d2] => do
    let y ← parse4 y1 y2 y3 y4
    let mo ← parse2 m1 m2
    let da ← parse2 d1 d2
    let dt : PyDateTime := ⟨y, mo, da, 0, 0, 0, 0⟩
    if validDT dt then pure dt else none
  | [y1, y2, y3, y4, '-', m1, m2, '-', d1, d2, 'T', h1, h2, ':', n1, n2, ':', s1, s2] => do
    let y ← parse4 y1 y2 y3 y4
    let mo ← parse2 m1 m2
    let da ← parse2 d1 d2
    let h ← parse2 h1 h2
    let mi ← parse2 n1 n2
    let se ← parse2 s1 s2
    let dt : PyDateTime := ⟨y, mo, da, h, mi, se, 0⟩
    if validDT dt then pure dt else none
  | [y1, y2, y3, y4, '-', m1, m2, '-', d1, d2, 'T', h1, h2, ':', n1, n2, ':', s1, s2,
     '.', u1, u2, u3, u4, u5, u6] => do
    let y ← parse4 y1 y2 y3 y4
    let mo ← parse2 m1 m2
    let da ← parse2 d1 d2
    let h ← parse2 h1 h2
    let mi ← parse2 n1 n2
    let se ← parse2 s1 s2
    let us ← parse6 u1 u2 u3 u4 u5 u6
    let dt : PyDateTime := ⟨y, mo, da, h, mi, se, us⟩
    if validDT dt then pure dt else none
  | _ => none

/-! ## `database.py` — tables, upserts, metadata

Each table is a list of rows, newest write first.  `INSERT OR REPLACE` deletes
every row that conflicts with the incoming one on the `INTEGER PRIMARY KEY` or
on a `UNIQUE` column, then inserts; the model prepends the new row after
filtering conflicting rows out.  Read-back order (`ORDER BY created_at DESC`)
is modelled as the list order; no property below depends on it.  The
per-record `try/except` wrappers around the upserts mean an upsert returns a
success flag rather than raising; constraint violations (the one way an upsert
can fail on well-typed data) are not modelled, so the modelled upserts always
succeed. -/

/-- The dict accepted by `DatabaseManager.upsert_pull_request` (the keys it
reads), as produced by `_process_pull_request` or read back from the table. -/
structure PRDict where
  id : Nat
  number : Nat
  title : String
  body : Option String
  state : String
  created_at : String
  updated_at : String
  closed_at : Option String
  merged_at : Option String
  user_login : String
  user_type : Option String
  base_branch : String
  head_branch : String
  additions : Option Int
  deletions : Option Int
  changed_files : Option Int
  commits_count : Option Int
  labels : List String
  assignees : List String
  draft : Bool
  mergeable : Option Bool
  first_response_at : Option String
deriving DecidableEq, Repr

/-- A row of the `pull_requests` table. -/
structure PRRow where
  id : Nat
  number : Nat
  title : String
  body : Option String
  state : String
  created_at : String
  updated_at : String
  closed_at : Option String
  merged_at : Option String
  user_login : String
  user_type : Option String
  base_branch : String
  head_branch : String
  additions : Option Int
  deletions : Option Int
  changed_files : Option Int
  commits_count : Option Int
  labels : String
  assignees : String
  draft : Bool
  mergeable : Option Bool
  is_breaking_change : Bool
  pr_type : String
  first_response_at : Option String
  last_fetched_at : String
deriving DecidableEq, Repr

/-- The row `upsert_pull_request` writes for a given dict: serialized
labels/assignees and the derived `pr_type` / `is_breaking_change` columns. -/
def prRowOf (now : String) (d : PRDict) : PRRow :=
  { id := d.id, number := d.number, title := d.title, body := d.body, state := d.state,
    created_at := d.created_at, updated_at := d.updated_at, closed_at := d.closed_at,
    merged_at := d.merged_at, user_login := d.user_login, user_type := d.user_type,
    base_branch := d.base_branch, head_branch := d.head_branch, additions := d.additions,
    deletions := d.deletions, changed_files := d.changed_files,
    commits_count := d.commits_count, labels := serialize_labels d.labels,
    assignees := serialize_assignees d.assignees, draft := d.draft,
    mergeable := d.mergeable,
    is_breaking_change := is_breaking_change d.title d.body d.labels,
    pr_type := classify_pr_type d.title d.labels,
    first_response_at := d.first_response_at, last_fetched_at := now }

/-- `DatabaseManager.upsert_pull_request`: `INSERT OR REPLACE` keyed by the
primary key `id` and the `UNIQUE(number)` constraint. -/
def upsert_pull_request (now : String) (d : PRDict) (t : List PRRow) : List PRRow :=
  prRowOf now d :: t.filter (fun r => !(r.id == d.id) && !(r.number == d.number))

/-- Read one stored PR row back as the dict shape `get_pull_requests` returns
(labels and assignees deserialized). -/
def prRowToDict (r : PRRow) : PRDict :=
  { id := r.id, number := r.number, title := r.title, body := r.body, state := r.state,
    created_at := r.created_at, updated_at := r.updated_at, closed_at := r.closed_at,
    merged_at := r.merged_at, user_login := r.user_login, user_type := r.user_type,
    base_branch := r.base_branch, head_branch := r.head_branch, additions := r.additions,
    deletions := r.deletions, changed_files := r.changed_files,
    commits_count := r.commits_count, labels := deserialize_labels r.labels,
    assignees := deserialize_assignees r.assignees, draft := r.draft,
    mergeable := r.mergeable, first_response_at := r.first_response_at }

/-- The dict accepted by `DatabaseManager.upsert_issue`. -/
structure IssueDict where
  id : Nat
  number : Nat
  title : String
  body : Option String
  state : String
  created_at : String
  updated_at : String
  closed_at : Option String
  user_login : String
  user_type : Option String
  assignee_login : Option String
  labels : List String
  comments_count : Option Int
  is_external_user : Bool
  first_response_at : Option String
deriving DecidableEq, Repr

/-- A row of the `issues` table. -/
structure IssueRow where
  id : Nat
  number : Nat
  title : String
  body : Option String
  state : String
  created_at : String
  updated_at : String
  closed_at : Option String
  user_login : String
  user_type : Option String
  assignee_login : Option String
  labels : String
  comments_count : Option Int
  issue_type : String
  priority : String
  first_response_at : Option String
  is_external_user : Bool
  last_fetched_at : String
deriving DecidableEq, Repr

/-- `DatabaseManager.upsert_issue`: serialize labels, derive type and priority,
`INSERT OR REPLACE` keyed by `id` and `UNIQUE(number)`. -/
def upsert_issue (now : String) (d : IssueDict) (t : List IssueRow) : List IssueRow :=
  { id := d.id, number := d.number, title := d.title, body := d.body, state := d.state,
    created_at := d.created_at, updated_at := d.updated_at, closed_at := d.closed_at,
    user_login := d.user_login, user_type := d.user_type,
    assignee_login := d.assignee_login, labels := serialize_labels d.labels,
    comments_count := d.comments_count,
    issue_type := classify_issue_type d.title d.labels,
    priority := get_priority_from_labels d.labels,
    first_response_at := d.first_response_at,
    is_external_user := d.is_external_user, last_fetched_at := now : IssueRow }
    :: t.filter (fun r => !(r.id == d.id) && !(r.number == d.number))

/-- The dict accepted by `DatabaseManager.upsert_review`. -/
structure ReviewDict where
  id : Nat
  pr_number : Nat
  reviewer_login : String
  state : String
  submitted_at : String
  body : Option String
  commit_sha : Option String
deriving DecidableEq, Repr

/-- A row of the `reviews` table. -/
structure ReviewRow where
  id : Nat
  pr_number : Nat
  reviewer_login : String
  state : String
  submitted_at : String
  body : Option String
  commit_sha : Option String
  last_fetched_at : String
deriving DecidableEq, Repr

/-- `DatabaseManager.upsert_review`: `INSERT OR REPLACE` keyed by `id`. -/
def upsert_review (now : String) (d : ReviewDict) (t : List ReviewRow) : List ReviewRow :=
  { id := d.id, pr_number := d.pr_number, reviewer_login := d.reviewer_login,
    state := d.state, submitted_at := d.submitted_at, body := d.body,
    commit_sha := d.commit_sha, last_fetched_at := now : ReviewRow }
    :: t.filter (fun r => !(r.id == d.id))

/-- The dict accepted by `DatabaseManager.upsert_comment`. -/
structure CommentDict where
  id : Nat
  issue_number : Option Nat
  pr_number : Option Nat
  user_login : String
  body : Option String
  created_at : String
  updated_at : String
  comment_type : String
deriving DecidableEq, Repr

/-- A row of the `comments` table. -/
structure CommentRow where
  id : Nat
  issue_number : Option Nat
  pr_number : Option Nat
  user_login : String
  body : Option String
  created_at : String
  updated_at : String
  comment_type : String
  last_fetched_at : String
deriving DecidableEq, Repr

/-- `DatabaseManager.upsert_comment`: `INSERT OR REPLACE` keyed by `id`. -/
def upsert_comment (now : String) (d : CommentDict) (t : List CommentRow) : List CommentRow :=
  { id := d.id, issue_number := d.issue_number, pr_number := d.pr_number,
    user_login := d.user_login, body := d.body, created_at := d.created_at,
    updated_at := d.updated_at, comment_type := d.comment_type,
    last_fetched_at := now : CommentRow }
    :: t.filter (fun r => !(r.id == d.id))

/-- The dict accepted by `DatabaseManager.upsert_release`. -/
structure ReleaseDict where
  id : Nat
  tag_name : String
  name : Option String
  body : Option String
  created_at : String
  published_at : Option String
  draft : Bool
  prerelease : Bool
  author_login : String
  tarball_url : Option String
  zipball_url : Option String
  is_breaking : Bool
deriving DecidableEq, Repr

/-- A row of the `releases` table. -/
structure ReleaseRow where
  id : Nat
  tag_name : String
  name : Option String
  body : Option String
  created_at : String
  published_at : Option String
  draft : Bool
  prerelease : Bool
  author_login : String
  tarball_url : Option String
  zipball_url : Option String
  is_breaking : Bool
  last_fetched_at : String
deriving DecidableEq, Repr

/-- `DatabaseManager.upsert_release`: `INSERT OR REPLACE` keyed by `id` and
`UNIQUE(tag_name)`. -/
def upsert_release (now : String) (d : ReleaseDict) (t : List ReleaseRow) : List ReleaseRow :=
  { id := d.id, tag_name := d.tag_name, name := d.name, body := d.body,
    created_at := d.created_at, published_at := d.published_at, draft := d.draft,
    prerelease := d.prerelease, author_login := d.author_login,
    tarball_url := d.tarball_url, zipball_url := d.zipball_url,
    is_breaking := d.is_breaking, last_fetched_at := now : ReleaseRow }
    :: t.filter (fun r => !(r.id == d.id) && !(r.tag_name == d.tag_name))

/-- A row of the `metadata` table (`key TEXT PRIMARY KEY, value, updated_at`). -/
structure MetaRow where
  key : String
  value : String
  updated_at : String
deriving DecidableEq, Repr

/-- `DatabaseManager.set_metadata`: `INSERT OR REPLACE` keyed by `key`. -/
def set_metadata (now key value : String) (t : List MetaRow) : List MetaRow :=
  ⟨key, value, now⟩ :: t.filter (fun r => !(r.key == key))

/-- `DatabaseManager.get_metadata`: `SELECT value FROM metadata WHERE key = ?`. -/
def get_metadata (t : List MetaRow) (key : String) : Option String :=
  (t.find? (fun r => r.key == key)).map (·.value)

/-- `DatabaseManager.get_last_sync_time`: read the `last_{sync_type}_sync` key. -/
def get_last_sync_time (t : List MetaRow) (sync_type : String) : Option String :=
  get_metadata t ("last_" ++ sync_type ++ "_sync")

/-- `DatabaseManager.update_last_sync_time`: write `datetime.utcnow()` (the
caller's clock reading `now`) under the `last_{sync_type}_sync` key. -/
def update_last_sync_time (now : String) (sync_type : String) (t : List MetaRow) :
    List MetaRow :=
  set_metadata now ("last_" ++ sync_type ++ "_sync") now t

/-- Modelled from the spec: `DatabaseManager.get_pull_request_by_number` is
called by `GitHubDataPipeline._process_comment` but is defined nowhere under
the sources; the spec describes the comment classification as a
"cross-reference — look up the parent number against already-stored pull
requests".  Modelled as that lookup. -/
def get_pull_request_by_number (t : List PRRow) (n : Nat) : Option PRRow :=
  t.find? (fun r => r.number == n)

/-- The whole SQLite database. -/
structure DB where
  pull_requests : List PRRow
  issues : List IssueRow
  reviews : List ReviewRow
  comments : List CommentRow
  releases : List ReleaseRow
  metadata : List MetaRow
deriving DecidableEq, Repr

/-- The empty database (schema created, no seeded metadata). -/
def DB.empty : DB := ⟨[], [], [], [], [], []⟩

/-! ## `data_pipeline.py` — raw records and normalizers

Raw remote records carry the fields the normalizers read.  GitHub delivers
every JSON key (possibly `null`), so nullable fields are `Option`; a field the
code reads with a bare subscript (`pr['updated_at']`) is typed non-optional
when the remote schema guarantees a string. -/

structure RawUser where
  login : String
  type : Option String
deriving DecidableEq, Repr

structure RawLabel where
  name : String
deriving DecidableEq, Repr

structure RawRef where
  ref : String
deriving DecidableEq, Repr

structure RawPullRequest where
  id : Nat
  number : Nat
  title : String
  body : Option String
  state : String
  created_at : String
  updated_at : String
  closed_at : Option String
  merged_at : Option String
  user : RawUser
  base : RawRef
  head : RawRef
  additions : Option Int
  deletions : Option Int
  changed_files : Option Int
  commits : Option Int
  labels : List RawLabel
  assignees : List RawUser
  draft : Option Bool
  mergeable : Option Bool
deriving DecidableEq, Repr

structure RawIssue where
  id : Nat
  number : Nat
  title : String
  body : Option String
  state : String
  created_at : String
  updated_at : String
  closed_at : Option String
  user : RawUser
  assignee : Option RawUser
  labels : List RawLabel
  comments : Option Int
  /-- Whether the raw record carries a `pull_request` key (a tracker item that
  is actually a pull request). -/
  has_pull_request_key : Bool
deriving DecidableEq, Repr

structure RawReview where
  id : Nat
  user : RawUser
  state : String
  submitted_at : String
  body : Option String
  commit_id : Option String
deriving DecidableEq, Repr

structure RawComment where
  id : Nat
  issue_url : String
  user : RawUser
  body : Option String
  created_at : String
  updated_at : String
deriving DecidableEq, Repr

structure RawRelease where
  id : Nat
  tag_name : String
  name : Option String
  body : Option String
  created_at : String
  published_at : Option String
  draft : Option Bool
  prerelease : Option Bool
  author : RawUser
  tarball_url : Option String
  zipball_url : Option String
deriving DecidableEq, Repr

/-- `GitHubDataPipeline._process_pull_request`: flatten labels/assignees and
derive `state` — a truthy `merged_at` forces `"merged"`, otherwise the raw
state passes through. -/
def _process_pull_request (pr : RawPullRequest) : PRDict :=
  { id := pr.id, number := pr.number, title := pr.title, body := pr.body,
    state := if optStrTruthy pr.merged_at then "merged" else pr.state,
    created_at := pr.created_at, updated_at := pr.updated_at,
    closed_at := pr.closed_at, merged_at := pr.merged_at,
    user_login := pr.user.login, user_type := pr.user.type,
    base_branch := pr.base.ref, head_branch := pr.head.ref,
    additions := pr.additions, deletions := pr.deletions,
    changed_files := pr.changed_files, commits_count := pr.commits,
    labels := pr.labels.map (·.name), assignees := pr.assignees.map (·.login),
    draft := pr.draft.getD false, mergeable := pr.mergeable,
    first_response_at := none }

/-- `GitHubDataPipeline._process_issue`. -/
def _process_issue (issue : RawIssue) : IssueDict :=
  { id := issue.id, number := issue.number, title := issue.title, body := issue.body,
    state := issue.state, created_at := issue.created_at, updated_at := issue.updated_at,
    closed_at := issue.closed_at, user_login := issue.user.login,
    user_type := issue.user.type,
    assignee_login := issue.assignee.map (·.login),
    labels := issue.labels.map (·.name),
    comments_count := issue.comments,
    is_external_user := issue.user.type == some "User",
    first_response_at := none }

/-- `GitHubDataPipeline._process_review`. -/
def _process_review (review : RawReview) (pr_number : Nat) : ReviewDict :=
  { id := review.id, pr_number := pr_number, reviewer_login := review.user.login,
    state := review.state, submitted_at := review.submitted_at, body := review.body,
    commit_sha := review.commit_id }

/-- Split a character list on a separator (Python `str.split(sep)`). -/
def splitChar (sep : Char) : List Char → List (List Char)
  | [] => [[]]
  | c :: rest =>
    match splitChar sep rest with
    | [] => [[c]]
    | g :: gs => if c = sep then [] :: g :: gs else (c :: g) :: gs

/-- Python `int(s)` on a bare decimal segment (the GitHub URL tail); `none`
models the `ValueError` raised on a non-numeric segment. -/
def pyIntOfStr (l : List Char) : Option Nat :=
  if l.isEmpty then none
  else if l.all (fun c => 48 ≤ c.toNat && c.toNat ≤ 57) then
    some (l.foldl (fun acc c => 10 * acc + (c.toNat - 48)) 0)
  else none

/-- `GitHubDataPipeline._process_comment`: parse the parent number from the
tail of `issue_url` (`none` models the `ValueError` from `int(...)`), then
cross-reference it against the stored pull requests to pick the comment type. -/
def _process_comment (stored_prs : List PRRow) (comment : RawComment) :
    Option CommentDict :=
  match pyIntOfStr (((splitChar '/' comment.issue_url.data).getLast?).getD []) with
  | none => none
  | some number =>
    let is_pr := (get_pull_request_by_number stored_prs number).isSome
    some { id := comment.id,
           issue_number := if is_pr then none else some number,
           pr_number := if is_pr then some number else none,
           user_login := comment.user.login, body := comment.body,
           created_at := comment.created_at, updated_at := comment.updated_at,
           comment_type := if is_pr then "pr" else "issue" }

/-- `GitHubDataPipeline._process_release`.  `none` models the
`AttributeError` raised by `release.get('name', '').lower()` when the remote
delivers `name: null` or `body: null` (the key is present, so the `.get`
default is not used and `None.lower()` is evaluated). -/
def _process_release (release : RawRelease) : Option ReleaseDict :=
  match release.name, release.body with
  | some nm, some bd =>
    some { id := release.id, tag_name := release.tag_name, name := some nm,
           body := some bd, created_at := release.created_at,
           published_at := release.published_at, draft := release.draft.getD false,
           prerelease := release.prerelease.getD false,
           author_login := release.author.login, tarball_url := release.tarball_url,
           zipball_url := release.zipball_url,
           is_breaking := pyInStr "breaking" (pyLower nm ++ pyLower bd) }
  | _, _ => none

/-! ## The remote oracle and the sync engine

`fetch_api` issues one GET and follows pagination links until exhausted,
returning the complete joined list (or `None` after a caught transport /
HTTP-status error).  An `Env` assigns each endpoint its joined outcome for the
run; the remote is modelled as deterministic within one run, so the two
fetches of the pulls feed inside `sync_incremental` see the same data. -/

structure Env where
  /-- `pulls?state=all&per_page=100&sort=updated&direction=desc` (the only
  state the pipeline ever requests). -/
  pulls : Option (List RawPullRequest)
  /-- `issues?state=all&...` with an optional `&since=` parameter. -/
  issuesAt : Option String → Option (List RawIssue)
  /-- `issues/comments?...`. -/
  comments : Option (List RawComment)
  /-- `releases?per_page=100`. -/
  releases : Option (List RawRelease)
  /-- `pulls/{n}`. -/
  prDetail : Nat → Option RawPullRequest
  /-- `pulls/{n}/reviews`. -/
  prReviews : Nat → Option (List RawReview)

/-- One remote call the sync engine makes (the observable fan-out of a run). -/
inductive SyncEffect where
  | fetchList (endpoint : String)
  | fetchDetail (prNumber : Nat)
  | fetchReviews (prNumber : Nat)
deriving DecidableEq, Repr

/-- Python `str(n)` for a count. -/
def pyStrOfNat (n : Nat) : String := Nat.repr n

/-- Is a fetched list falsy (`if not pr_data`): failed or empty? -/
def feedFalsy {α : Type} : Option (List α) → Bool
  | none => true
  | some l => l.isEmpty

def pullsListEndpoint (state : String) : String :=
  "pulls?state=" ++ state ++ "&per_page=100&sort=updated&direction=desc"

def issuesListEndpoint (state : String) : String :=
  "issues?state=" ++ state ++ "&per_page=100&sort=updated&direction=desc"

def issuesSinceEndpoint (since_iso : Option String) : String :=
  issuesListEndpoint "all" ++
    (if optStrTruthy since_iso then "&since=" ++ since_iso.getD "" else "")

/-- Upsert a batch of processed pull requests in feed order. -/
def upsertPRBatch (now : String) (prs : List RawPullRequest) (db : DB) : DB :=
  prs.foldl
    (fun d pr =>
      let t := upsert_pull_request now (_process_pull_request pr) d.pull_requests
      { d with pull_requests := t })
    db

/-- `GitHubDataPipeline.fetch_and_store_pull_requests`: fetch the whole feed,
upsert every record, then advance the `pr` checkpoint and the
`total_prs_tracked` counter.  A falsy feed returns 0 before any write. -/
def fetch_and_store_pull_requests (env : Env) (now : String) (state : String) (db : DB) :
    Nat × DB × List SyncEffect :=
  let eff := [SyncEffect.fetchList (pullsListEndpoint state)]
  match env.pulls with
  | none => (0, db, eff)
  | some feed =>
    if feed.isEmpty then (0, db, eff)
    else
      let stored_count := feed.length
      let db := upsertPRBatch now feed db
      let db := { db with metadata := update_last_sync_time now "pr" db.metadata }
      let m := set_metadata now "total_prs_tracked" (pyStrOfNat stored_count) db.metadata
      let db := { db with metadata := m }
      (stored_count, db, eff)

/-- The records the `fetch_and_store_pull_requests_since` loop reaches before
its `break`: the loop stops at the first record with a truthy `updated_at`
that is `<=` the (truthy) cutoff string. -/
def prsToProcess (since_iso : Option String) : List RawPullRequest → List RawPullRequest
  | [] => []
  | pr :: rest =>
    if optStrTruthy since_iso && !pr.updated_at.data.isEmpty &&
        pyStrLe pr.updated_at (since_iso.getD "") then
      []
    else
      pr :: prsToProcess since_iso rest

/-- `GitHubDataPipeline.fetch_and_store_pull_requests_since`: scan the
descending-sorted feed, upserting until the first already-synced record;
no checkpoint is written here. -/
def fetch_and_store_pull_requests_since (env : Env) (now : String)
    (since_iso : Option String) (db : DB) : Nat × DB × List SyncEffect :=
  let eff := [SyncEffect.fetchList (pullsListEndpoint "all")]
  match env.pulls with
  | none => (0, db, eff)
  | some feed =>
    if feed.isEmpty then (0, db, eff)
    else
      let todo := prsToProcess since_iso feed
      (todo.length, upsertPRBatch now todo db, eff)

/-- `GitHubDataPipeline.fetch_and_store_issues`: fetch the whole feed, upsert
every record that is not secretly a pull request, then advance the `issue`
checkpoint and the `total_issues_tracked` counter. -/
def fetch_and_store_issues (env : Env) (now : String) (state : String) (db : DB) :
    Nat × DB × List SyncEffect :=
  let eff := [SyncEffect.fetchList (issuesListEndpoint state)]
  match env.issuesAt none with
  | none => (0, db, eff)
  | some feed =>
    if feed.isEmpty then (0, db, eff)
    else
      let todo := feed.filter (fun i => !i.has_pull_request_key)
      let stored_count := todo.length
      let db := todo.foldl
        (fun d i => { d with issues := upsert_issue now (_process_issue i) d.issues }) db
      let db := { db with metadata := update_last_sync_time now "issue" db.metadata }
      let m := set_metadata now "total_issues_tracked" (pyStrOfNat stored_count) db.metadata
      let db := { db with metadata := m }
      (stored_count, db, eff)

/-- `GitHubDataPipeline.fetch_and_store_issues_since`: same scan but against
the endpoint with the server-side `since` filter; no checkpoint is written. -/
def fetch_and_store_issues_since (env : Env) (now : String) (since_iso : Option String)
    (db : DB) : Nat × DB × List SyncEffect :=
  let param := if optStrTruthy since_iso then some (since_iso.getD "") else none
  let eff := [SyncEffect.fetchList (issuesSinceEndpoint since_iso)]
  match env.issuesAt param with
  | none => (0, db, eff)
  | some feed =>
    if feed.isEmpty then (0, db, eff)
    else
      let todo := feed.filter (fun i => !i.has_pull_request_key)
      (todo.length,
       todo.foldl
         (fun d i => { d with issues := upsert_issue now (_process_issue i) d.issues }) db,
       eff)

/-- Store one PR's fetched reviews; returns the number stored. -/
def storeReviews (now : String) (pr_number : Nat) (reviews : List RawReview) (db : DB) :
    Nat × DB :=
  (reviews.length,
   reviews.foldl
     (fun d r => { d with reviews := upsert_review now (_process_review r pr_number) d.reviews })
     db)

/-- One iteration of a reviews-fetch loop: fetch `pulls/{n}/reviews` and store
whatever came back. -/
def reviewsStep (env : Env) (now : String) (acc : Nat × DB × List SyncEffect) (n : Nat) :
    Nat × DB × List SyncEffect :=
  let (count, db, effs) := acc
  let effs := effs ++ [SyncEffect.fetchReviews n]
  match env.prReviews n with
  | none => (count, db, effs)
  | some reviews =>
    if reviews.isEmpty then (count, db, effs)
    else
      let (stored, db) := storeReviews now n reviews db
      (count + stored, db, effs)

/-- `GitHubDataPipeline.fetch_and_store_reviews_for_all_prs`: one reviews
fetch per stored pull request (snapshot taken before the loop). -/
def fetch_and_store_reviews_for_all_prs (env : Env) (now : String) (db : DB) :
    Nat × DB × List SyncEffect :=
  (db.pull_requests.map (·.number)).foldl (reviewsStep env now) (0, db, [])

/-- `GitHubDataPipeline.fetch_and_store_reviews_for_prs` (the incremental
path): one reviews fetch per given PR number.  Defined in the source but never
called by `sync_incremental`. -/
def fetch_and_store_reviews_for_prs (env : Env) (now : String) (pr_numbers : List Nat)
    (db : DB) : Nat × DB × List SyncEffect :=
  if pr_numbers.isEmpty then (0, db, [])
  else pr_numbers.foldl (reviewsStep env now) (0, db, [])

/-- One iteration of the comment loop: normalize (which can raise) and upsert. -/
def commentStep (now : String) (acc : Except String (Nat × DB)) (c : RawComment) :
    Except String (Nat × DB) := do
  let (count, db) ← acc
  match _process_comment db.pull_requests c with
  | none => throw "ValueError: invalid literal for int()"
  | some d => pure (count + 1, { db with comments := upsert_comment now d db.comments })

/-- `GitHubDataPipeline.fetch_and_store_comments`: fetch the repository-wide
comment feed and upsert each comment; classification reads the pull-request
table.  `Except.error` models the uncaught `ValueError` from `int(...)` on a
malformed parent URL. -/
def fetch_and_store_comments (env : Env) (now : String) (db : DB) :
    Except String (Nat × DB × List SyncEffect) := do
  let eff := [SyncEffect.fetchList "issues/comments?sort=updated&direction=desc&per_page=100"]
  match env.comments with
  | none => return (0, db, eff)
  | some feed =>
    if feed.isEmpty then return (0, db, eff)
    else
      let res ← feed.foldl (commentStep now) (.ok (0, db))
      return (res.1, res.2, eff)

/-- One iteration of the release loop: normalize (which can raise) and upsert. -/
def releaseStep (now : String) (acc : Except String (Nat × DB)) (r : RawRelease) :
    Except String (Nat × DB) := do
  let (count, db) ← acc
  match _process_release r with
  | none => throw "AttributeError: NoneType has no attribute lower"
  | some d => pure (count + 1, { db with releases := upsert_release now d db.releases })

/-- `GitHubDataPipeline.fetch_and_store_releases`.  `Except.error` models the
uncaught `AttributeError` on a null release name/body. -/
def fetch_and_store_releases (env : Env) (now : String) (db : DB) :
    Except String (Nat × DB × List SyncEffect) := do
  let eff := [SyncEffect.fetchList "releases?per_page=100"]
  match env.releases with
  | none => return (0, db, eff)
  | some feed =>
    if feed.isEmpty then return (0, db, eff)
    else
      let res ← feed.foldl (releaseStep now) (.ok (0, db))
      return (res.1, res.2, eff)

/-- Merge the four fetched statistics into a PR dict (the read-modify-write of
the statistics refresh). -/
def mergeStats (base : PRDict) (detail : RawPullRequest) : PRDict :=
  { base with additions := some (detail.additions.getD 0),
              deletions := some (detail.deletions.getD 0),
              changed_files := some (detail.changed_files.getD 0),
              commits_count := some (detail.commits.getD 0) }

/-- One iteration of the full-path statistics loop: fetch `pulls/{n}` for a
read-back row and merge the four fetched numbers into it. -/
def addDelDataStep (env : Env) (now : String) (acc : Nat × DB × List SyncEffect)
    (row : PRRow) : Nat × DB × List SyncEffect :=
  let (count, db, effs) := acc
  let effs := effs ++ [SyncEffect.fetchDetail row.number]
  match env.prDetail row.number with
  | none => (count, db, effs)
  | some detail =>
    let d := mergeStats (prRowToDict row) detail
    (count + 1,
     { db with pull_requests := upsert_pull_request now d db.pull_requests },
     effs)

/-- `GitHubDataPipeline.fetch_add_del_data` (full path): for every stored pull
request, fetch `pulls/{n}` and merge the statistics into the read-back row. -/
def fetch_add_del_data (env : Env) (now : String) (db : DB) :
    Nat × DB × List SyncEffect :=
  db.pull_requests.foldl (addDelDataStep env now) (0, db, [])

/-- One iteration of the incremental statistics loop: fetch `pulls/{n}` and
merge into the snapshot row if one exists, else reconstruct from the detail
payload. -/
def addDelStep (env : Env) (now : String) (existing : List PRRow)
    (acc : Nat × DB × List SyncEffect) (n : Nat) : Nat × DB × List SyncEffect :=
  let (count, db, effs) := acc
  let effs := effs ++ [SyncEffect.fetchDetail n]
  match env.prDetail n with
  | none => (count, db, effs)
  | some detail =>
    let d :=
      match existing.find? (fun r => r.number == n) with
      | none => mergeStats (_process_pull_request detail) detail
      | some base => mergeStats (prRowToDict base) detail
    (count + 1,
     { db with pull_requests := upsert_pull_request now d db.pull_requests },
     effs)

/-- `GitHubDataPipeline.fetch_add_del_for_prs` (incremental path): statistics
only for the given PR numbers; a PR not yet stored is reconstructed from the
detail payload itself, a stored one is read-merged-written.  The
`existing_prs` snapshot is taken before the loop. -/
def fetch_add_del_for_prs (env : Env) (now : String) (pr_numbers : List Nat) (db : DB) :
    Nat × DB × List SyncEffect :=
  if pr_numbers.isEmpty then (0, db, [])
  else pr_numbers.foldl (addDelStep env now db.pull_requests) (0, db, [])

/-- The counts `sync_all_data` returns. -/
structure SyncAllResult where
  pull_requests : Nat
  issues : Nat
  reviews : Nat
  comments : Nat
  releases : Nat
  additions_deletions_fetched : Nat
  timestamp : String
deriving DecidableEq, Repr

/-- `GitHubDataPipeline.sync_all_data`: the six phases in order, then the
`full` checkpoint.  A phase whose fetch failed contributes zero; the run
itself only fails on the per-record parse errors modelled above. -/
def sync_all_data (env : Env) (now : String) (db : DB) :
    Except String (SyncAllResult × DB × List SyncEffect) := do
  let r1 := fetch_and_store_pull_requests env now "all" db
  let r2 := fetch_and_store_issues env now "all" r1.2.1
  let r3 := fetch_and_store_reviews_for_all_prs env now r2.2.1
  let r4 ← fetch_and_store_comments env now r3.2.1
  let r5 ← fetch_and_store_releases env now r4.2.1
  let r6 := fetch_add_del_data env now r5.2.1
  let dbFinal : DB :=
    { r6.2.1 with metadata := update_last_sync_time now "full" r6.2.1.metadata }
  return ({ pull_requests := r1.1, issues := r2.1, reviews := r3.1,
            comments := r4.1, releases := r5.1,
            additions_deletions_fetched := r6.1, timestamp := now },
          dbFinal, r1.2.2 ++ r2.2.2 ++ r3.2.2 ++ r4.2.2 ++ r5.2.2 ++ r6.2.2)

/-- The cutoff computation of `sync_incremental` (lines 353–358): a truthy
stored checkpoint is parsed with `datetime.fromisoformat` (an unparsable one
raises `ValueError`), a falsy one falls back to the distant-past sentinel
`"2000-01-01T00:00:00"`. -/
def parseCheckpoint (raw : Option String) : Except String PyDateTime :=
  if optStrTruthy raw then
    match fromisoformat (raw.getD "") with
    | some dt => .ok dt
    | none => .error "ValueError: Invalid isoformat string"
  else
    match fromisoformat "2000-01-01T00:00:00" with
    | some dt => .ok dt
    | none => .error "unreachable"

/-- The effective cutoff: `max` of the two parsed checkpoints, re-serialized. -/
def effectiveCutoff (rawInc rawFull : Option String) : Except String String := do
  let last_inc_dt ← parseCheckpoint rawInc
  let last_full_dt ← parseCheckpoint rawFull
  return (pymaxDT last_inc_dt last_full_dt).isoformat

/-- The touched set: the second scan of the pulls feed inside
`sync_incremental`, collecting PR numbers until the first record whose
`updated_at` is not strictly greater than the cutoff. -/
def touchedPRNumbers (last_inc : String) : List RawPullRequest → List Nat
  | [] => []
  | pr :: rest =>
    if !optStrTruthy (some last_inc) ||
        (!pr.updated_at.data.isEmpty && pyStrLt last_inc pr.updated_at) then
      pr.number :: touchedPRNumbers last_inc rest
    else
      []

/-- The counts `sync_incremental` returns. -/
structure SyncIncResult where
  pull_requests : Nat
  issues : Nat
  additions_deletions_updated : Nat
  timestamp : String
deriving DecidableEq, Repr

/-- `GitHubDataPipeline.sync_incremental`: compute the cutoff from the
`incremental` and `full` checkpoints, run the bounded PR scan, collect the
touched set from a second pass over the same feed, run the issues fetch with
the server-side `since` filter, refresh statistics for the touched set, then
advance the `incremental` checkpoint. -/
def sync_incremental (env : Env) (now : String) (db : DB) :
    Except String (SyncIncResult × DB × List SyncEffect) := do
  let last_inc_raw := get_last_sync_time db.metadata "incremental"
  let last_full_raw := get_last_sync_time db.metadata "full"
  let last_inc ← effectiveCutoff last_inc_raw last_full_raw
  let r1 := fetch_and_store_pull_requests_since env now (some last_inc) db
  let t2 := [SyncEffect.fetchList (pullsListEndpoint "all")]
  let updated_pr_numbers :=
    match env.pulls with
    | none => []
    | some feed => touchedPRNumbers last_inc feed
  let r3 := fetch_and_store_issues_since env now (some last_inc) r1.2.1
  let r4 := fetch_add_del_for_prs env now updated_pr_numbers r3.2.1
  let dbFinal : DB :=
    { r4.2.1 with metadata := update_last_sync_time now "incremental" r4.2.1.metadata }
  return ({ pull_requests := r1.1, issues := r3.1,
            additions_deletions_updated := r4.1, timestamp := now },
          dbFinal, r1.2.2 ++ t2 ++ r3.2.2 ++ r4.2.2)

/-- `GitHubDataPipeline.__init__`: a falsy `GITHUB_TOKEN` is the fatal startup
condition (`raise ValueError`). -/
def pipelineStartup (github_token : Option String) : Except String Unit :=
  if optStrTruthy github_token then .ok ()
  else .error "GITHUB_TOKEN not found in environment variables"

/-! ## Round-trip of the JSON encoding

`json.loads` inverts `json.dumps` on every list of strings; the lemmas below
walk the parser over the encoder's output character by character. -/

theorem charToNat_ofNat {n : Nat} (h : Nat.isValidChar n) : (Char.ofNat n).toNat = n := by
  unfold Char.ofNat
  rw [dif_pos h]
  rfl

theorem char_isValid (c : Char) : Nat.isValidChar c.toNat := c.valid

theorem fromHexChar_hexChar (m : Nat) : fromHexChar (hexChar m) = some (m % 16) := by
  unfold hexChar fromHexChar
  by_cases h : m % 16 < 10
  · rw [if_pos h]
    rw [charToNat_ofNat (Or.inl (by omega))]
    rw [if_pos (by omega)]
    congr 1
    omega
  · have hlt : m % 16 < 16 := Nat.mod_lt _ (by omega)
    rw [if_neg h]
    rw [charToNat_ofNat (Or.inl (by omega))]
    rw [if_neg (by omega), if_pos (by omega)]
    congr 1
    omega

theorem hex4val_encode {v : Nat} (h : v < 0x10000) :
    hex4val (hexChar (v / 4096)) (hexChar (v / 256)) (hexChar (v / 16)) (hexChar v) = some v := by
  simp only [hex4val, fromHexChar_hexChar, Option.bind_some, bind, Option.bind]
  congr 1
  omega

theorem parseEscape_quote (r : List Char) : parseEscape ('"' :: r) = some ('"', r) := by
  simp [parseEscape]

theorem parseEscape_backslash (r : List Char) : parseEscape ('\\' :: r) = some ('\\', r) := by
  simp [parseEscape]

theorem parseEscape_b (r : List Char) : parseEscape ('b' :: r) = some ('\x08', r) := by
  simp [parseEscape]

theorem parseEscape_f (r : List Char) : parseEscape ('f' :: r) = some ('\x0c', r) := by
  simp [parseEscape]

theorem parseEscape_n (r : List Char) : parseEscape ('n' :: r) = some ('\n', r) := by
  simp [parseEscape]

theorem parseEscape_r (r : List Char) : parseEscape ('r' :: r) = some ('\r', r) := by
  simp [parseEscape]

theorem parseEscape_t (r : List Char) : parseEscape ('t' :: r) = some ('\t', r) := by
  simp [parseEscape]

theorem parseEscape_uBMP {v : Nat} (hv : v < 0x10000) (hs : v < 0xd800 ∨ 0xe000 ≤ v)
    (r : List Char) :
    parseEscape ('u' :: (hex4 v ++ r)) = some (Char.ofNat v, r) := by
  simp only [parseEscape]
  rw [if_neg (by decide), if_neg (by decide), if_neg (by decide), if_neg (by decide),
      if_neg (by decide), if_neg (by decide), if_neg (by decide), if_neg (by decide)]
  simp only [ite_true]
  simp only [hex4, List.cons_append, List.nil_append, parseUnicodeEscape]
  rw [hex4val_encode hv]
  simp only []
  rw [if_pos hs]

theorem parseUnicodeEscape_pair {vhi vlo : Nat} (h1 : 0xd800 ≤ vhi) (h2 : vhi < 0xdc00)
    (h3 : 0xdc00 ≤ vlo) (h4 : vlo < 0xe000) (r : List Char) :
    parseUnicodeEscape ((hex4 vhi ++ ('\\' :: 'u' :: hex4 vlo)) ++ r) =
      some (Char.ofNat (0x10000 + (vhi - 0xd800) * 0x400 + (vlo - 0xdc00)), r) := by
  have hhi : vhi < 0x10000 := by omega
  have hlo : vlo < 0x10000 := by omega
  simp only [hex4, List.cons_append, List.nil_append, List.append_assoc]
  rw [parseUnicodeEscape]
  rw [hex4val_encode hhi]
  simp only []
  rw [if_neg (by omega), if_pos (by omega)]
  rw [if_pos (by exact ⟨trivial, trivial⟩)]
  rw [hex4val_encode hlo]
  simp only []
  rw [if_pos (by constructor <;> omega)]

set_option maxRecDepth 4000 in
theorem parseEscape_uSurrogate {v : Nat} (hv : 0x10000 ≤ v) (hv2 : v < 0x110000)
    (r : List Char) :
    parseEscape ('u' :: ((hex4 (0xd800 + (v - 0x10000) / 0x400) ++
      ('\\' :: 'u' :: hex4 (0xdc00 + (v - 0x10000) % 0x400))) ++ r)) =
      some (Char.ofNat v, r) := by
  have hm : (v - 0x10000) % 0x400 < 0x400 := Nat.mod_lt _ (by omega)
  have hq : (v - 0x10000) / 0x400 < 0x400 := by omega
  rw [parseEscape]
  rw [if_neg (by decide), if_neg (by decide), if_neg (by decide), if_neg (by decide),
      if_neg (by decide), if_neg (by decide), if_neg (by decide), if_neg (by decide),
      if_pos rfl]
  rw [parseUnicodeEscape_pair (by omega) (by omega) (by omega) (by omega)]
  have heq : 0x10000 + (0xd800 + (v - 0x10000) / 0x400 - 0xd800) * 0x400 +
      (0xdc00 + (v - 0x10000) % 0x400 - 0xdc00) = v := by omega
  rw [heq]

theorem jsonScan_quoteEnd (acc : List Char) (items : List (List Char)) (rest : List Char) :
    jsonScan (.inStr acc) items ('"' :: rest) =
      jsonScan .afterItem (acc.reverse :: items) rest := by
  rw [jsonScan]
  rw [if_pos rfl]

theorem jsonScan_plain {c : Char} (h1 : c ≠ '"') (h2 : c ≠ '\\') (acc : List Char)
    (items : List (List Char)) (rest : List Char) :
    jsonScan (.inStr acc) items (c :: rest) = jsonScan (.inStr (c :: acc)) items rest := by
  rw [jsonScan]
  rw [if_neg h1, if_neg h2]

theorem jsonScan_backslash {rest : List Char} {ch : Char} {rest2 : List Char}
    (acc : List Char) (items : List (List Char))
    (h : parseEscape rest = some (ch, rest2)) :
    jsonScan (.inStr acc) items ('\\' :: rest) =
      jsonScan (.inStr (ch :: acc)) items rest2 := by
  rw [jsonScan]
  rw [if_neg (by decide), if_pos rfl]
  split
  · next heq => rw [h] at heq; cases heq
  · next c' r' heq => rw [h] at heq; cases heq; rfl

theorem jsonScan_escapeChar (c : Char) (acc : List Char) (items : List (List Char))
    (rest : List Char) :
    jsonScan (.inStr acc) items (jsonEscapeChar c ++ rest) =
      jsonScan (.inStr (c :: acc)) items rest := by
  rw [jsonEscapeChar]
  split_ifs with h1 h2 h3 h4 h5 h6 h7 h8 h9
  · subst h1
    exact jsonScan_backslash acc items (parseEscape_quote rest)
  · subst h2
    exact jsonScan_backslash acc items (parseEscape_backslash rest)
  · subst h3
    exact jsonScan_backslash acc items (parseEscape_b rest)
  · subst h4
    exact jsonScan_backslash acc items (parseEscape_f rest)
  · subst h5
    exact jsonScan_backslash acc items (parseEscape_n rest)
  · subst h6
    exact jsonScan_backslash acc items (parseEscape_r rest)
  · subst h7
    exact jsonScan_backslash acc items (parseEscape_t rest)
  · -- BMP escape
    have hv : c.toNat < 0x10000 := by rcases h8 with h | h <;> omega
    have hs : c.toNat < 0xd800 ∨ 0xe000 ≤ c.toNat := by
      rcases char_isValid c with h | h
      · exact Or.inl h
      · exact Or.inr (by omega)
    have := jsonScan_backslash acc items (parseEscape_uBMP hv hs rest)
    rw [Char.ofNat_toNat] at this
    simpa using this
  · -- plain ASCII character
    exact jsonScan_plain h1 h2 acc items rest
  · -- astral plane: surrogate pair
    have hv : 0x10000 ≤ c.toNat := by
      rcases char_isValid c with h | h
      · omega
      · by_contra hc
        exact h8 (Or.inr (by omega))
    have hv2 : c.toNat < 0x110000 := by
      rcases char_isValid c with h | h
      · omega
      · omega
    have := jsonScan_backslash acc items (parseEscape_uSurrogate hv hv2 rest)
    rw [Char.ofNat_toNat] at this
    simpa [List.append_assoc] using this

theorem jsonScan_escapeStr (s : List Char) (acc : List Char) (items : List (List Char))
    (rest : List Char) :
    jsonScan (.inStr acc) items (jsonEscapeStr s ++ rest) =
      jsonScan (.inStr (s.reverse ++ acc)) items rest := by
  induction s generalizing acc with
  | nil => simp [jsonEscapeStr]
  | cons c s ih =>
    rw [jsonEscapeStr, List.append_assoc, jsonScan_escapeChar, ih]
    simp [List.append_assoc]

theorem jsonScan_dumpsRest (xs : List String) (items : List (List Char)) :
    jsonScan .afterItem items (jsonDumpsRest xs) =
      some (items.reverse ++ xs.map String.data) := by
  induction xs generalizing items with
  | nil =>
    rw [jsonDumpsRest, jsonScan]
    rw [if_neg (by decide), if_neg (by decide), if_pos rfl, if_pos (by decide)]
    simp
  | cons s xs ih =>
    rw [jsonDumpsRest, jsonScan]
    rw [if_neg (by decide), if_pos rfl]
    rw [jsonScan]
    rw [if_pos (by decide)]
    show jsonScan .afterComma items (jsonItemChars s ++ jsonDumpsRest xs) =
      some (items.reverse ++ (s :: xs).map String.data)
    rw [jsonItemChars, List.cons_append, jsonScan]
    rw [if_neg (by decide), if_pos rfl]
    rw [List.append_assoc, List.singleton_append, jsonScan_escapeStr, jsonScan_quoteEnd, ih]
    simp

theorem jsonLoads_dumps (L : List String) : jsonLoadsStrList (jsonDumpsList L) = some L := by
  cases L with
  | nil => decide
  | cons x xs =>
    rw [jsonDumpsList, jsonLoadsStrList]
    show (jsonTopArr ('[' :: (jsonItemChars x ++ jsonDumpsRest xs))).map _ = _
    rw [jsonTopArr]
    rw [if_neg (by decide), if_pos rfl]
    rw [jsonItemChars, List.cons_append, jsonOpenArr]
    rw [if_neg (by decide), if_neg (by decide), if_pos rfl]
    rw [List.append_assoc, List.singleton_append, jsonScan_escapeStr, jsonScan_quoteEnd,
        jsonScan_dumpsRest]
    simp
    have hmk : ((fun d => (⟨d⟩ : String)) ∘ String.data) = id := funext fun s => rfl
    rw [hmk, List.map_id]

/-- `serialize_labels` coincides with `json.dumps` on every input (the falsy
branch returns the same `"[]"` that `json.dumps([])` produces). -/
theorem serialize_labels_eq_dumps (L : List String) :
    serialize_labels L = jsonDumpsList L := by
  cases L <;> simp [serialize_labels, jsonDumpsList]

/-- The dumped form of a list is never the empty string. -/
theorem jsonDumpsList_ne_empty (L : List String) : (jsonDumpsList L).data.isEmpty = false := by
  cases L <;> rfl

/-! ## The claims

Each `claim_Cn` theorem settles one claim of the specification review; the
definitions and lemmas in between are their concrete inputs and supporting
facts. -/

/-- **C10.** Label and assignee serialization round-trips: for every list of
strings `L`, `deserialize_labels (serialize_labels L) = L` and
`deserialize_assignees (serialize_assignees L) = L`, including the empty list. -/
theorem claim_C10 (L : List String) :
    deserialize_labels (serialize_labels L) = L ∧
    deserialize_assignees (serialize_assignees L) = L := by
  have hlab : deserialize_labels (serialize_labels L) = L := by
    rw [serialize_labels_eq_dumps, deserialize_labels]
    rw [if_neg (by rw [jsonDumpsList_ne_empty]; exact fun h => nomatch h)]
    rw [jsonLoads_dumps]
    rfl
  have heq1 : serialize_assignees = serialize_labels := rfl
  have heq2 : deserialize_assignees = deserialize_labels := rfl
  rw [heq1, heq2]
  exact ⟨hlab, hlab⟩

/-- **C8.** Upsert is idempotent for every entity kind: re-applying the same
dict leaves the table in the same state as applying it once
(replace-by-natural-key; the read-back row is therefore identical too). -/
theorem claim_C8 :
    (∀ now d t, upsert_pull_request now d (upsert_pull_request now d t) =
      upsert_pull_request now d t) ∧
    (∀ now d t, upsert_issue now d (upsert_issue now d t) = upsert_issue now d t) ∧
    (∀ now d t, upsert_review now d (upsert_review now d t) = upsert_review now d t) ∧
    (∀ now d t, upsert_comment now d (upsert_comment now d t) = upsert_comment now d t) ∧
    (∀ now d t, upsert_release now d (upsert_release now d t) = upsert_release now d t) := by
  refine ⟨?_, ?_, ?_, ?_, ?_⟩ <;> intro now d t <;>
    simp [upsert_pull_request, upsert_issue, upsert_review, upsert_comment, upsert_release,
      prRowOf, List.filter_filter, Bool.and_self]

/-- **C5.** Comment classification: when the parent number parses, the comment
dict exists; if that number matches a stored pull request the comment is a PR
comment (`comment_type = "pr"`, `pr_number` set, `issue_number` null),
otherwise an issue comment the other way round. -/
theorem claim_C5 (stored_prs : List PRRow) (comment : RawComment) (n : Nat)
    (hparse : pyIntOfStr (((splitChar '/' comment.issue_url.data).getLast?).getD []) = some n) :
    ∃ d, _process_comment stored_prs comment = some d ∧
      ((∃ r ∈ stored_prs, r.number = n) →
        d.comment_type = "pr" ∧ d.pr_number = some n ∧ d.issue_number = none) ∧
      ((∀ r ∈ stored_prs, r.number ≠ n) →
        d.comment_type = "issue" ∧ d.issue_number = some n ∧ d.pr_number = none) := by
  unfold _process_comment
  rw [hparse]
  have hiff : (get_pull_request_by_number stored_prs n).isSome = true ↔
      ∃ r ∈ stored_prs, r.number = n := by
    rw [get_pull_request_by_number, List.find?_isSome]
    simp
  by_cases hpr : (get_pull_request_by_number stored_prs n).isSome
  · refine ⟨_, rfl, fun _ => ?_, fun hno => ?_⟩
    · simp [hpr]
    · obtain ⟨r, hr, hrn⟩ := hiff.mp hpr
      exact absurd hrn (hno r hr)
  · refine ⟨_, rfl, fun hyes => ?_, fun _ => ?_⟩
    · exact absurd (hiff.mpr hyes) hpr
    · simp [hpr]

/-- A stored pull-request row with number 7 (witness input for C5). -/
def c5Row : PRRow :=
  { id := 7, number := 7, title := "t", body := none, state := "open",
    created_at := "2024-01-01T00:00:00", updated_at := "2024-01-02T00:00:00",
    closed_at := none, merged_at := none, user_login := "u", user_type := none,
    base_branch := "main", head_branch := "f", additions := none, deletions := none,
    changed_files := none, commits_count := none, labels := "[]", assignees := "[]",
    draft := false, mergeable := none, is_breaking_change := false, pr_type := "feature",
    first_response_at := none, last_fetched_at := "2024-01-02T00:00:00" }

/-- A raw comment whose parent URL ends in 7 (witness input for C5). -/
def c5Comment : RawComment :=
  { id := 1, issue_url := "https://api.github.com/repos/jspsych/jsPsych/issues/7",
    user := ⟨"alice", none⟩, body := some "hi", created_at := "2024-01-03T00:00:00",
    updated_at := "2024-01-03T00:00:00" }

/-- Witness for C5 at a concrete comment and store. -/
theorem claim_C5_witness :
    pyIntOfStr (((splitChar '/' c5Comment.issue_url.data).getLast?).getD []) = some 7 ∧
    (∃ d, _process_comment [c5Row] c5Comment = some d ∧
      ((∃ r ∈ [c5Row], r.number = 7) →
        d.comment_type = "pr" ∧ d.pr_number = some 7 ∧ d.issue_number = none) ∧
      ((∀ r ∈ [c5Row], r.number ≠ 7) →
        d.comment_type = "issue" ∧ d.issue_number = some 7 ∧ d.pr_number = none)) :=
  ⟨by decide, claim_C5 [c5Row] c5Comment 7 (by decide)⟩

/-- The `classify_pr_type` decision procedure as the amended claim C6 reads:
the label vocabulary is checked first, case-insensitively, with label sets
bugfix ⟵ {bug, bugfix, fix}, feature ⟵ {feature, enhancement, new-feature},
docs ⟵ {documentation, docs}, maintenance ⟵ {maintenance, refactor, cleanup};
failing every label set, the title is checked for substrings, with word sets
bugfix ⟵ {fix, bug, patch, hotfix}, feature ⟵ {add, feature, implement, new},
docs ⟵ {doc, readme, documentation}, maintenance ⟵ {refactor, cleanup,
maintenance, update}; the default is "feature". -/
def classifyPrTypeAmended (title : String) (labels : List String) : String :=
  let title_lower := pyLower title
  let labels_lower := labels.map pyLower
  if labels_lower.any (fun l => pyInList l ["bug", "bugfix", "fix"]) then "bugfix"
  else if labels_lower.any (fun l => pyInList l ["feature", "enhancement", "new-feature"]) then
    "feature"
  else if labels_lower.any (fun l => pyInList l ["documentation", "docs"]) then "docs"
  else if labels_lower.any (fun l => pyInList l ["maintenance", "refactor", "cleanup"]) then
    "maintenance"
  else if ["fix", "bug", "patch", "hotfix"].any (fun w => pyInStr w title_lower) then "bugfix"
  else if ["add", "feature", "implement", "new"].any (fun w => pyInStr w title_lower) then
    "feature"
  else if ["doc", "readme", "documentation"].any (fun w => pyInStr w title_lower) then "docs"
  else if ["refactor", "cleanup", "maintenance", "update"].any (fun w => pyInStr w title_lower)
    then "maintenance"
  else "feature"

/-- Checking a vocabulary against the stored labels is the same as checking
each label against the vocabulary. -/
theorem any_pyInList_comm (vocab ll : List String) :
    vocab.any (fun l => pyInList l ll) = ll.any (fun y => pyInList y vocab) := by
  rw [Bool.eq_iff_iff]
  simp only [List.any_eq_true, pyInList, decide_eq_true_eq]
  constructor
  · rintro ⟨v, hv, y, hy, he⟩
    exact ⟨y, hy, v, hv, he.symm⟩
  · rintro ⟨y, hy, v, hv, he⟩
    exact ⟨v, hv, y, hy, he.symm⟩

/-- Lower-casing is idempotent on characters. -/
theorem lowerChar_idem (c : Char) : lowerChar (lowerChar c) = lowerChar c := by
  unfold lowerChar
  by_cases h : 65 ≤ c.toNat ∧ c.toNat ≤ 90
  · rw [if_pos h]
    rw [charToNat_ofNat (Or.inl (by omega))]
    rw [if_neg (by omega)]
  · rw [if_neg h, if_neg h]

/-- Lower-casing is idempotent on strings. -/
theorem pyLower_idem (s : String) : pyLower (pyLower s) = pyLower s := by
  unfold pyLower
  simp only [List.map_map]
  have h : lowerChar ∘ lowerChar = lowerChar := funext lowerChar_idem
  rw [h]

/-- **C6 counterexample.** `"patch"` is in the claimed bugfix labels/words
vocabulary, yet a pull request labelled `patch` (with a title matching no
vocabulary word) classifies as the default `"feature"`, not `"bugfix"`. -/
theorem claim_C6_counterexample :
    "patch" ∈ ["bug", "bugfix", "fix", "patch", "hotfix"] ∧
    classify_pr_type "improve startup sequence" ["patch"] = "feature" ∧
    classify_pr_type "improve startup sequence" ["patch"] ≠ "bugfix" := by
  refine ⟨by decide, by decide, by decide⟩

/-- **C6 (amended).** `classify_pr_type` equals the amended decision procedure
on every input, is case-insensitive, and always returns one of the four
categories (never an empty/null category; the no-match default is the
`"feature"` branch of `classifyPrTypeAmended`). -/
theorem claim_C6 (title : String) (labels : List String) :
    classify_pr_type title labels = classifyPrTypeAmended title labels ∧
    classify_pr_type (pyLower title) (labels.map pyLower) = classify_pr_type title labels ∧
    (classify_pr_type title labels = "bugfix" ∨ classify_pr_type title labels = "feature" ∨
     classify_pr_type title labels = "docs" ∨ classify_pr_type title labels = "maintenance") := by
  refine ⟨?_, ?_, ?_⟩
  · unfold classify_pr_type classifyPrTypeAmended
    simp only [any_pyInList_comm]
  · unfold classify_pr_type
    simp only [pyLower_idem, List.map_map]
    have : pyLower ∘ pyLower = pyLower := funext pyLower_idem
    rw [this]
  · unfold classify_pr_type
    dsimp only
    split_ifs <;> simp

/-- The break test of the incremental scan, under a nonempty cutoff and a
nonempty timestamp, is exactly `updated_at <= cutoff`. -/
theorem sinceBreak_iff (c : String) (pr : RawPullRequest) (hc : c.data ≠ [])
    (hu : pr.updated_at.data ≠ []) :
    (optStrTruthy (some c) && !pr.updated_at.data.isEmpty &&
      pyStrLe pr.updated_at ((some c : Option String).getD "")) =
      decide (pr.updated_at.data ≤ c.data) := by
  simp only [optStrTruthy, pyStrLe, Option.getD_some]
  simp [hc, hu]

/-- The incremental scan processes exactly the longest prefix of records whose
`updated_at` is strictly greater than the cutoff. -/
theorem prsToProcess_eq_takeWhile (c : String) (feed : List RawPullRequest)
    (hc : c.data ≠ []) (hupd : ∀ pr ∈ feed, pr.updated_at.data ≠ []) :
    prsToProcess (some c) feed =
      feed.takeWhile (fun pr => decide (c.data < pr.updated_at.data)) := by
  induction feed with
  | nil => rfl
  | cons pr rest ih =>
    have hu : pr.updated_at.data ≠ [] := hupd pr (by simp)
    rw [prsToProcess, List.takeWhile_cons, sinceBreak_iff c pr hc hu]
    by_cases hle : pr.updated_at.data ≤ c.data
    · rw [if_pos (by simpa using hle), if_neg (by simpa using not_lt.mpr hle)]
    · rw [if_neg (by simpa using hle), if_pos (by simpa using lt_of_not_le hle)]
      rw [ih (fun q hq => hupd q (by simp [hq]))]

/-- On a descending-sorted feed, membership in the processed prefix is exactly
`updated_at > cutoff`. -/
theorem mem_prsToProcess_iff (c : String) (feed : List RawPullRequest)
    (hc : c.data ≠ []) (hupd : ∀ pr ∈ feed, pr.updated_at.data ≠ [])
    (hsorted : List.Pairwise
      (fun a b : RawPullRequest => b.updated_at.data ≤ a.updated_at.data) feed) :
    ∀ pr ∈ feed, (pr ∈ prsToProcess (some c) feed ↔ c.data < pr.updated_at.data) := by
  intro pr hpr
  rw [prsToProcess_eq_takeWhile c feed hc hupd]
  constructor
  · intro hmem
    simpa using List.mem_takeWhile_imp hmem
  · intro hgt
    induction feed with
    | nil => cases hpr
    | cons q rest ih =>
      rw [List.takeWhile_cons]
      rcases List.mem_cons.mp hpr with rfl | htail
      · rw [if_pos (by simpa using hgt)]
        exact List.mem_cons_self _ _
      · have hq : c.data < q.updated_at.data :=
          lt_of_lt_of_le hgt (List.rel_of_pairwise_cons hsorted htail)
        rw [if_pos (by simpa using hq)]
        exact List.mem_cons_of_mem _
          (ih (fun r hr => hupd r (by simp [hr])) hsorted.tail htail)

/-- **C1.** Incremental boundary property: on a feed sorted by `updated_at`
descending (nonempty cutoff, nonempty timestamps), the scan of
`fetch_and_store_pull_requests_since` processes exactly the longest prefix of
records with `updated_at > C`: every record strictly above the cutoff is
stored, no record at or below it is (a record exactly at the cutoff counts as
already synced), the scan stops at the first non-greater record, and the
reported stored count is the length of that prefix. -/
theorem claim_C1 (c : String) (feed : List RawPullRequest) (env : Env) (now : String)
    (db : DB) (hc : c.data ≠ [])
    (hupd : ∀ pr ∈ feed, pr.updated_at.data ≠ [])
    (hsorted : List.Pairwise
      (fun a b : RawPullRequest => b.updated_at.data ≤ a.updated_at.data) feed)
    (hfeed : env.pulls = some feed) :
    prsToProcess (some c) feed =
      feed.takeWhile (fun pr => decide (c.data < pr.updated_at.data)) ∧
    (∀ pr ∈ feed, (pr ∈ prsToProcess (some c) feed ↔ c.data < pr.updated_at.data)) ∧
    (fetch_and_store_pull_requests_since env now (some c) db).1 =
      (prsToProcess (some c) feed).length := by
  refine ⟨prsToProcess_eq_takeWhile c feed hc hupd,
    mem_prsToProcess_iff c feed hc hupd hsorted, ?_⟩
  rw [fetch_and_store_pull_requests_since, hfeed]
  cases feed with
  | nil => rfl
  | cons q rest => rfl

/-- The state-derivation invariant of the `pull_requests` table:
`merged_at` present implies `state = "merged"`. -/
def prStateInvariant (t : List PRRow) : Prop :=
  ∀ r ∈ t, r.merged_at ≠ none → r.state = "merged"

/-- `upsert_pull_request` preserves the state invariant whenever the incoming
dict satisfies it. -/
theorem upsert_preserves_state_inv {d : PRDict} (now : String) {t : List PRRow}
    (hd : d.merged_at ≠ none → d.state = "merged") (ht : prStateInvariant t) :
    prStateInvariant (upsert_pull_request now d t) := by
  intro r hr
  rw [upsert_pull_request] at hr
  rcases List.mem_cons.mp hr with rfl | hmem
  · intro hm
    have hdm : d.merged_at ≠ none := by simpa [prRowOf] using hm
    simpa [prRowOf] using hd hdm
  · exact ht r (List.mem_of_mem_filter hmem)

/-- A normalized pull request satisfies the invariant premise: a non-null
(and non-empty) `merged_at` forces the derived state to `"merged"`. -/
theorem processed_state_premise (pr : RawPullRequest) (h : pr.merged_at ≠ some "") :
    (_process_pull_request pr).merged_at ≠ none →
      (_process_pull_request pr).state = "merged" := by
  intro hm
  simp only [_process_pull_request] at hm ⊢
  cases hmm : pr.merged_at with
  | none => rw [hmm] at hm; exact absurd rfl hm
  | some s =>
    have hs : s ≠ "" := fun he => h (by rw [hmm, he])
    have hsd : s.data ≠ [] := by
      intro hd
      apply hs
      cases s with
      | mk l => cases hd; rfl
    rw [if_pos (by simp [optStrTruthy, hsd])]

/-- `mergeStats` keeps `state` and `merged_at` untouched. -/
theorem mergeStats_state_premise {d : PRDict} (detail : RawPullRequest)
    (hd : d.merged_at ≠ none → d.state = "merged") :
    (mergeStats d detail).merged_at ≠ none → (mergeStats d detail).state = "merged" := by
  simpa [mergeStats] using hd

/-- A read-back row satisfies the invariant premise when its source row does. -/
theorem rowToDict_state_premise {r : PRRow} (hr : r.merged_at ≠ none → r.state = "merged") :
    (prRowToDict r).merged_at ≠ none → (prRowToDict r).state = "merged" := by
  simpa [prRowToDict] using hr

/-- The incremental statistics step preserves the state invariant. -/
theorem addDelStep_preserves_state_inv (env : Env) (now : String)
    {existing : List PRRow} (hex : prStateInvariant existing)
    (hdet : ∀ n d, env.prDetail n = some d → d.merged_at ≠ some "")
    {acc : Nat × DB × List SyncEffect} (hacc : prStateInvariant acc.2.1.pull_requests)
    (n : Nat) :
    prStateInvariant (addDelStep env now existing acc n).2.1.pull_requests := by
  obtain ⟨count, db, effs⟩ := acc
  rw [addDelStep]
  cases hd : env.prDetail n with
  | none => exact hacc
  | some detail =>
    simp only []
    cases hf : existing.find? (fun r => r.number == n) with
    | none =>
      exact upsert_preserves_state_inv now
        (mergeStats_state_premise detail (processed_state_premise detail (hdet n detail hd)))
        hacc
    | some base =>
      have hbase : base ∈ existing := List.mem_of_find?_eq_some hf
      exact upsert_preserves_state_inv now
        (mergeStats_state_premise detail (rowToDict_state_premise (hex base hbase)))
        hacc

/-- **C4.** State-derivation invariant: `merged_at` non-null implies
`state = "merged"` after every pull-request upsert — for a freshly normalized
record, for a whole normalized batch, and through the read-merge-write
statistics refreshes of both sync paths.  (The `merged_at ≠ some ""` premises
say the remote timestamp, when present, is a non-empty string.) -/
theorem claim_C4 :
    (∀ now pr t, pr.merged_at ≠ some "" → prStateInvariant t →
      prStateInvariant (upsert_pull_request now (_process_pull_request pr) t)) ∧
    (∀ now feed db, (∀ pr ∈ feed, pr.merged_at ≠ some "") →
      prStateInvariant db.pull_requests →
      prStateInvariant (upsertPRBatch now feed db).pull_requests) ∧
    (∀ env now pr_numbers db,
      (∀ n d, env.prDetail n = some d → d.merged_at ≠ some "") →
      prStateInvariant db.pull_requests →
      prStateInvariant (fetch_add_del_for_prs env now pr_numbers db).2.1.pull_requests) ∧
    (∀ env now db,
      (∀ n d, env.prDetail n = some d → d.merged_at ≠ some "") →
      prStateInvariant db.pull_requests →
      prStateInvariant (fetch_add_del_data env now db).2.1.pull_requests) := by
  have hbatch : ∀ now (feed : List RawPullRequest) (db : DB),
      (∀ pr ∈ feed, pr.merged_at ≠ some "") → prStateInvariant db.pull_requests →
      prStateInvariant (upsertPRBatch now feed db).pull_requests := by
    intro now feed
    induction feed with
    | nil => intro db _ h; exact h
    | cons pr rest ih =>
      intro db hfeed h
      rw [upsertPRBatch] at *
      simp only [List.foldl_cons]
      exact ih _ (fun q hq => hfeed q (by simp [hq]))
        (upsert_preserves_state_inv now
          (processed_state_premise pr (hfeed pr (by simp))) h)
  refine ⟨?_, hbatch, ?_, ?_⟩
  · intro now pr t hpr ht
    exact upsert_preserves_state_inv now (processed_state_premise pr hpr) ht
  · intro env now pr_numbers db hdet hdb
    rw [fetch_add_del_for_prs]
    by_cases hnil : pr_numbers.isEmpty
    · rw [if_pos hnil]; exact hdb
    · rw [if_neg hnil]
      have : ∀ (nums : List Nat) (acc : Nat × DB × List SyncEffect),
          prStateInvariant acc.2.1.pull_requests →
          prStateInvariant
            ((nums.foldl (addDelStep env now db.pull_requests) acc).2.1.pull_requests) := by
        intro nums
        induction nums with
        | nil => intro acc h; exact h
        | cons n rest ih =>
          intro acc h
          rw [List.foldl_cons]
          exact ih _ (addDelStep_preserves_state_inv env now hdb hdet h n)
      exact this pr_numbers (0, db, []) hdb
  · intro env now db hdet hdb
    rw [fetch_add_del_data]
    have : ∀ (rows : List PRRow) (acc : Nat × DB × List SyncEffect),
        (∀ r ∈ rows, r.merged_at ≠ none → r.state = "merged") →
        prStateInvariant acc.2.1.pull_requests →
        prStateInvariant ((rows.foldl (addDelDataStep env now) acc).2.1.pull_requests) := by
      intro rows
      induction rows with
      | nil => intro acc _ h; exact h
      | cons row rest ih =>
        intro acc hrows h
        rw [List.foldl_cons]
        refine ih _ (fun r hr => hrows r (by simp [hr])) ?_
        obtain ⟨count, db', effs⟩ := acc
        rw [addDelDataStep]
        cases hd : env.prDetail row.number with
        | none => exact h
        | some detail =>
          simp only []
          exact upsert_preserves_state_inv now
            (mergeStats_state_premise detail
              (rowToDict_state_premise (hrows row (by simp)))) h
    exact this db.pull_requests (0, db, []) hdb hdb

/-- An environment in which every remote fetch fails (used by C3 and C7). -/
def envAllFail : Env :=
  { pulls := none, issuesAt := fun _ => none, comments := none, releases := none,
    prDetail := fun _ => none, prReviews := fun _ => none }

/-- A database whose stored incremental checkpoint is not a timestamp. -/
def c3DB : DB :=
  { DB.empty with metadata := [⟨"last_incremental_sync", "garbage", "2024-01-01T00:00:00"⟩] }

/-- **C3 counterexample.** With the stored checkpoint `"garbage"` (not parsable
as a timestamp), `sync_incremental` raises `ValueError` instead of falling
back to the distant-past sentinel: the run fails. -/
theorem claim_C3_counterexample :
    fromisoformat "garbage" = none ∧
    get_last_sync_time c3DB.metadata "incremental" = some "garbage" ∧
    (sync_incremental envAllFail "2024-06-03T00:00:00" c3DB).toOption = none := by
  refine ⟨by decide, by decide, by decide⟩

/-- **C3 (amended).** The distant-past sentinel is used only when a stored
checkpoint is absent or empty: a falsy checkpoint parses to the sentinel
datetime, a non-empty unparsable checkpoint raises `ValueError` and fails the
cutoff computation (and with it the run), and a run whose two checkpoints are
both absent completes normally. -/
theorem claim_C3 :
    (∀ raw : Option String, optStrTruthy raw = false →
      parseCheckpoint raw = .ok ⟨2000, 1, 1, 0, 0, 0, 0⟩) ∧
    (∀ (s : String) (rawFull : Option String), s.data ≠ [] → fromisoformat s = none →
      effectiveCutoff (some s) rawFull = .error "ValueError: Invalid isoformat string") ∧
    (∀ env now db, get_last_sync_time db.metadata "incremental" = none →
      get_last_sync_time db.metadata "full" = none →
      ∃ res db' tr, sync_incremental env now db = .ok (res, db', tr)) := by
  refine ⟨?_, ?_, ?_⟩
  · intro raw hraw
    rw [parseCheckpoint, if_neg (by simp [hraw])]
    rfl
  · intro s rawFull hs hparse
    rw [effectiveCutoff]
    have h1 : parseCheckpoint (some s) = .error "ValueError: Invalid isoformat string" := by
      rw [parseCheckpoint, if_pos (by simp [optStrTruthy, hs])]
      rw [Option.getD_some, hparse]
    rw [h1]
    rfl
  · intro env now db hinc hfull
    rw [sync_incremental, hinc, hfull]
    have hcut : effectiveCutoff none none = .ok "2000-01-01T00:00:00" := rfl
    rw [hcut]
    exact ⟨_, _, _, rfl⟩

/-- Witness for C3 at concrete inputs: a falsy checkpoint, the concrete
unparsable string, and an all-failing environment over the empty database. -/
theorem claim_C3_witness :
    (optStrTruthy none = false ∧
      parseCheckpoint none = .ok ⟨2000, 1, 1, 0, 0, 0, 0⟩) ∧
    (("garbage" : String).data ≠ [] ∧ fromisoformat "garbage" = none ∧
      effectiveCutoff (some "garbage") none =
        .error "ValueError: Invalid isoformat string") ∧
    (get_last_sync_time DB.empty.metadata "incremental" = none ∧
      get_last_sync_time DB.empty.metadata "full" = none ∧
      ∃ res db' tr, sync_incremental envAllFail "2024-06-03T00:00:00" DB.empty =
        .ok (res, db', tr)) :=
  ⟨⟨by decide, claim_C3.1 none (by decide)⟩,
   ⟨by decide, by decide, claim_C3.2.1 "garbage" none (by decide) (by decide)⟩,
   ⟨by decide, by decide,
    claim_C3.2.2 envAllFail "2024-06-03T00:00:00" DB.empty (by decide) (by decide)⟩⟩

/-- A minimal raw pull request (no labels/assignees) used as concrete input. -/
def mkSamplePR (n : Nat) (upd : String) (merged : Option String) : RawPullRequest :=
  { id := n, number := n, title := "t", body := none, state := "open",
    created_at := "2024-01-01T00:00:00", updated_at := upd, closed_at := none,
    merged_at := merged, user := ⟨"u", some "User"⟩, base := ⟨"main"⟩, head := ⟨"f"⟩,
    additions := some 1, deletions := some 2, changed_files := some 3, commits := some 4,
    labels := [], assignees := [], draft := some false, mergeable := none }

/-- The pulls feed of the C2 scenario: PR 1 updated after the cutoff, PR 2
updated before it. -/
def c2Feed : List RawPullRequest :=
  [mkSamplePR 1 "2024-06-02T00:00:00" none, mkSamplePR 2 "2024-05-30T00:00:00" none]

/-- The environment of the C2 scenario: the pulls feed above, a working detail
endpoint and a review available for every PR. -/
def c2Env : Env :=
  { pulls := some c2Feed, issuesAt := fun _ => none, comments := none, releases := none,
    prDetail := fun n => if n = 1 then some (mkSamplePR 1 "2024-06-02T00:00:00" none) else none,
    prReviews := fun _ =>
      some [⟨9, ⟨"r", none⟩, "APPROVED", "2024-06-02T01:00:00", none, none⟩] }

/-- The database of the C2 scenario: incremental checkpoint 2024-06-01. -/
def c2DB : DB :=
  { DB.empty with
    metadata := [⟨"last_incremental_sync", "2024-06-01T00:00:00", "2024-06-01T00:00:00"⟩] }

/-- **C2.** At a state whose touched set is exactly `{1}`, the incremental run
issues a statistics fetch for PR 1 and **no reviews fetch at all** — even
though reviews are available and `fetch_and_store_reviews_for_prs` (the
incremental reviews function, defined but never called by `sync_incremental`)
would fetch and store them for exactly the touched set. -/
theorem claim_C2 :
    touchedPRNumbers "2024-06-01T00:00:00" c2Feed = [1] ∧
    ((sync_incremental c2Env "2024-06-03T00:00:00" c2DB).toOption.map
      (fun x =>
        (x.1.pull_requests, x.1.additions_deletions_updated,
         x.2.2.filter (fun e => match e with | .fetchDetail _ => true | _ => false),
         x.2.2.filter (fun e => match e with | .fetchReviews _ => true | _ => false)))) =
      some (1, 1, [SyncEffect.fetchDetail 1], []) ∧
    ((fetch_and_store_reviews_for_prs c2Env "2024-06-03T00:00:00"
        (touchedPRNumbers "2024-06-01T00:00:00" c2Feed) c2DB).1 = 1 ∧
     (fetch_and_store_reviews_for_prs c2Env "2024-06-03T00:00:00"
        (touchedPRNumbers "2024-06-01T00:00:00" c2Feed) c2DB).2.2 =
       [SyncEffect.fetchReviews 1]) := by
  refine ⟨by decide, by decide, by decide, by decide⟩

/-- The C1 witness feed: the spec scenario (cutoff `2024-06-01`, one record
above it, one below). -/
def c1Feed : List RawPullRequest :=
  [mkSamplePR 1 "2024-06-02T00:00:00" none, mkSamplePR 2 "2024-05-30T00:00:00" none]

/-- The C1 witness environment. -/
def c1Env : Env :=
  { pulls := some c1Feed, issuesAt := fun _ => none, comments := none, releases := none,
    prDetail := fun _ => none, prReviews := fun _ => none }

/-- Witness for C1 at the spec's boundary scenario. -/
theorem claim_C1_witness :
    (("2024-06-01T00:00:00" : String).data ≠ [] ∧
     (∀ pr ∈ c1Feed, pr.updated_at.data ≠ []) ∧
     List.Pairwise (fun a b : RawPullRequest => b.updated_at.data ≤ a.updated_at.data) c1Feed ∧
     c1Env.pulls = some c1Feed) ∧
    (prsToProcess (some "2024-06-01T00:00:00") c1Feed =
      c1Feed.takeWhile
        (fun pr => decide (("2024-06-01T00:00:00" : String).data < pr.updated_at.data)) ∧
     (∀ pr ∈ c1Feed, (pr ∈ prsToProcess (some "2024-06-01T00:00:00") c1Feed ↔
        ("2024-06-01T00:00:00" : String).data < pr.updated_at.data)) ∧
     (fetch_and_store_pull_requests_since c1Env "2024-06-03T00:00:00"
        (some "2024-06-01T00:00:00") DB.empty).1 =
       (prsToProcess (some "2024-06-01T00:00:00") c1Feed).length) :=
  ⟨⟨by decide, by decide, by decide, rfl⟩,
   claim_C1 "2024-06-01T00:00:00" c1Feed c1Env "2024-06-03T00:00:00" DB.empty
     (by decide) (by decide) (by decide) rfl⟩

/-- The C4 witness record: the spec scenario PR 42, raw state `"open"` with a
non-null merge timestamp. -/
def c4PR : RawPullRequest := mkSamplePR 42 "2024-01-02T00:00:00" (some "2024-01-01T00:00:00")

/-- Witness for C4: upserting the normalized PR 42 into an empty table
preserves (establishes) the invariant. -/
theorem claim_C4_witness :
    (c4PR.merged_at ≠ some "" ∧ prStateInvariant []) ∧
    prStateInvariant
      (upsert_pull_request "2024-01-03T00:00:00" (_process_pull_request c4PR) []) :=
  ⟨⟨by decide, by simp [prStateInvariant]⟩,
   claim_C4.1 "2024-01-03T00:00:00" c4PR [] (by decide) (by simp [prStateInvariant])⟩

/-- Filtering out rows that a predicate can never pick leaves `find?` alone. -/
theorem find?_filter_of_imp {α : Type} (p q : α → Bool) (l : List α)
    (h : ∀ x, p x = true → q x = true) : (l.filter q).find? p = l.find? p := by
  induction l with
  | nil => rfl
  | cons a l ih =>
    by_cases hq : q a
    · rw [List.filter_cons_of_pos hq, List.find?_cons, List.find?_cons]
      cases hp : p a
      · exact ih
      · rfl
    · rw [List.filter_cons_of_neg hq, List.find?_cons]
      cases hp : p a
      · exact ih
      · exact absurd (h a hp) hq

/-- `set_metadata` leaves every other key's value unchanged. -/
theorem get_metadata_set_other (now skey v k : String) (m : List MetaRow)
    (h : k ≠ skey) :
    get_metadata (set_metadata now skey v m) k = get_metadata m k := by
  rw [get_metadata, set_metadata, List.find?_cons]
  cases hk : (MetaRow.mk skey v now).key == k with
  | true =>
    have hk' : skey = k := by simpa using hk
    exact absurd hk'.symm h
  | false =>
    show ((m.filter (fun r => !(r.key == skey))).find? (fun r => r.key == k)).map (·.value) =
      get_metadata m k
    rw [get_metadata, find?_filter_of_imp]
    intro x hx
    have hxk : x.key = k := by simpa using hx
    simp only [hxk]
    simpa using h

/-- The PR batch upsert never touches the metadata table. -/
theorem upsertPRBatch_metadata (now : String) (feed : List RawPullRequest) (db : DB) :
    (upsertPRBatch now feed db).metadata = db.metadata := by
  induction feed generalizing db with
  | nil => rfl
  | cons pr rest ih =>
    rw [upsertPRBatch] at *
    rw [List.foldl_cons]
    exact ih _

/-- The incremental PR fetch never touches the metadata table. -/
theorem since_fetch_metadata (env : Env) (now : String) (since : Option String) (db : DB) :
    (fetch_and_store_pull_requests_since env now since db).2.1.metadata = db.metadata := by
  rw [fetch_and_store_pull_requests_since]
  cases env.pulls with
  | none => rfl
  | some feed =>
    simp only []
    by_cases hf : feed.isEmpty
    · rw [if_pos hf]
    · rw [if_neg hf]
      exact upsertPRBatch_metadata now _ db

/-- The incremental issues fetch never touches the metadata table. -/
theorem issues_since_metadata (env : Env) (now : String) (since : Option String) (db : DB) :
    (fetch_and_store_issues_since env now since db).2.1.metadata = db.metadata := by
  rw [fetch_and_store_issues_since]
  cases env.issuesAt (if optStrTruthy since then some (since.getD "") else none) with
  | none => rfl
  | some feed =>
    simp only []
    by_cases hf : feed.isEmpty
    · rw [if_pos hf]
    · rw [if_neg hf]
      simp only []
      generalize (feed.filter fun i => !i.has_pull_request_key) = todo
      induction todo generalizing db with
      | nil => rfl
      | cons i rest ih =>
        rw [List.foldl_cons]
        exact ih _

/-- The incremental statistics refresh never touches the metadata table. -/
theorem add_del_for_prs_metadata (env : Env) (now : String) (nums : List Nat) (db : DB) :
    (fetch_add_del_for_prs env now nums db).2.1.metadata = db.metadata := by
  rw [fetch_add_del_for_prs]
  by_cases hn : nums.isEmpty
  · rw [if_pos hn]
  · rw [if_neg hn]
    have : ∀ (ns : List Nat) (acc : Nat × DB × List SyncEffect),
        ((ns.foldl (addDelStep env now db.pull_requests) acc).2.1.metadata =
          acc.2.1.metadata) := by
      intro ns
      induction ns with
      | nil => intro acc; rfl
      | cons n rest ih =>
        intro acc
        rw [List.foldl_cons]
        rw [ih]
        obtain ⟨count, dba, effs⟩ := acc
        rw [addDelStep]
        cases env.prDetail n with
        | none => rfl
        | some detail => rfl
    exact this nums (0, db, [])

/-- **C9.** Checkpoint monotonicity: `update_last_sync_time` stores exactly the
completion clock reading under the phase's key, leaves every other metadata
key unchanged, and — provided the wall clock has not run backwards past the
prior value — the stored checkpoint never decreases; moreover a successful
`sync_incremental` run changes the metadata table only by that final
checkpoint advance. -/
theorem claim_C9 :
    (∀ now sync_type meta,
      get_last_sync_time (update_last_sync_time now sync_type meta) sync_type = some now) ∧
    (∀ now sync_type meta k, k ≠ "last_" ++ sync_type ++ "_sync" →
      get_metadata (update_last_sync_time now sync_type meta) k = get_metadata meta k) ∧
    (∀ now sync_type meta prior, get_last_sync_time meta sync_type = some prior →
      prior.data ≤ now.data →
      ∃ v, get_last_sync_time (update_last_sync_time now sync_type meta) sync_type = some v ∧
        prior.data ≤ v.data) ∧
    (∀ env now db res db' tr, sync_incremental env now db = .ok (res, db', tr) →
      db'.metadata = update_last_sync_time now "incremental" db.metadata) := by
  have h1 : ∀ (now sync_type : String) (meta : List MetaRow),
      get_last_sync_time (update_last_sync_time now sync_type meta) sync_type = some now := by
    intro now sync_type meta
    simp [get_last_sync_time, update_last_sync_time, get_metadata, set_metadata]
  refine ⟨h1, ?_, ?_, ?_⟩
  · intro now sync_type meta k hk
    rw [update_last_sync_time]
    exact get_metadata_set_other now _ now k meta hk
  · intro now sync_type meta prior _ hle
    exact ⟨now, h1 now sync_type meta, hle⟩
  · intro env now db res db' tr h
    rw [sync_incremental] at h
    cases hcut : effectiveCutoff (get_last_sync_time db.metadata "incremental")
        (get_last_sync_time db.metadata "full") with
    | error e => rw [hcut] at h; cases h
    | ok cutoff =>
      rw [hcut] at h
      simp only [bind, Except.bind, pure, Except.pure, Except.ok.injEq, Prod.mk.injEq] at h
      obtain ⟨-, hdb, -⟩ := h
      rw [← hdb]
      simp only []
      rw [add_del_for_prs_metadata, issues_since_metadata, since_fetch_metadata]

/-- A failed or empty pulls fetch contributes a zero count. -/
theorem pr_phase_zero (env : Env) (now state : String) (db : DB)
    (h : feedFalsy env.pulls = true) :
    (fetch_and_store_pull_requests env now state db).1 = 0 := by
  rw [fetch_and_store_pull_requests]
  cases hp : env.pulls with
  | none => rfl
  | some feed =>
    simp only []
    rw [if_pos (by simp [feedFalsy, hp] at h; simp [h])]

/-- A failed or empty issues fetch contributes a zero count. -/
theorem issue_phase_zero (env : Env) (now state : String) (db : DB)
    (h : feedFalsy (env.issuesAt none) = true) :
    (fetch_and_store_issues env now state db).1 = 0 := by
  rw [fetch_and_store_issues]
  cases hp : env.issuesAt none with
  | none => rfl
  | some feed =>
    simp only []
    rw [if_pos (by simp [feedFalsy, hp] at h; simp [h])]

/-- When every per-PR reviews fetch fails, the reviews count stays zero. -/
theorem reviews_phase_zero (env : Env) (now : String) (db : DB)
    (h : ∀ n, env.prReviews n = none) :
    (fetch_and_store_reviews_for_all_prs env now db).1 = 0 := by
  rw [fetch_and_store_reviews_for_all_prs]
  have : ∀ (nums : List Nat) (acc : Nat × DB × List SyncEffect),
      (nums.foldl (reviewsStep env now) acc).1 = acc.1 := by
    intro nums
    induction nums with
    | nil => intro acc; rfl
    | cons n rest ih =>
      intro acc
      rw [List.foldl_cons, ih]
      obtain ⟨count, dba, effs⟩ := acc
      rw [reviewsStep, h n]
  rw [this]

/-- When every per-PR detail fetch fails, the statistics count stays zero. -/
theorem add_del_phase_zero (env : Env) (now : String) (db : DB)
    (h : ∀ n, env.prDetail n = none) :
    (fetch_add_del_data env now db).1 = 0 := by
  rw [fetch_add_del_data]
  have : ∀ (rows : List PRRow) (acc : Nat × DB × List SyncEffect),
      (rows.foldl (addDelDataStep env now) acc).1 = acc.1 := by
    intro rows
    induction rows with
    | nil => intro acc; rfl
    | cons row rest ih =>
      intro acc
      rw [List.foldl_cons, ih]
      obtain ⟨count, dba, effs⟩ := acc
      rw [addDelDataStep, h row.number]
  rw [this]

/-- Under parsable comment URLs, the comment phase completes, with a zero
count when the fetch failed or came back empty. -/
theorem comments_phase_ok (env : Env) (now : String) (db : DB)
    (h : ∀ feed, env.comments = some feed → ∀ c ∈ feed,
      (pyIntOfStr (((splitChar '/' c.issue_url.data).getLast?).getD [])).isSome = true) :
    ∃ out, fetch_and_store_comments env now db = .ok out ∧
      (feedFalsy env.comments = true → out.1 = 0) := by
  rw [fetch_and_store_comments]
  cases hp : env.comments with
  | none => exact ⟨_, rfl, fun _ => rfl⟩
  | some feed =>
    simp only []
    by_cases hf : feed.isEmpty
    · rw [if_pos hf]
      exact ⟨_, rfl, fun _ => rfl⟩
    · rw [if_neg hf]
      have hok : ∀ (cs : List RawComment), (∀ c ∈ cs,
          (pyIntOfStr (((splitChar '/' c.issue_url.data).getLast?).getD [])).isSome = true) →
          ∀ (acc : Nat × DB),
          ∃ out, cs.foldl (commentStep now) (.ok acc) = .ok out := by
        intro cs
        induction cs with
        | nil => intro _ acc; exact ⟨acc, rfl⟩
        | cons c rest ih =>
          intro hcs acc
          rw [List.foldl_cons]
          have hc := hcs c (by simp)
          rw [commentStep]
          cases hpc : _process_comment acc.2.pull_requests c with
          | none =>
            exfalso
            rw [_process_comment] at hpc
            cases hn : pyIntOfStr (((splitChar '/' c.issue_url.data).getLast?).getD []) with
            | none => rw [hn] at hc; exact absurd hc (by simp)
            | some n => rw [hn] at hpc; cases hpc
          | some d =>
            simp only [bind, Except.bind, hpc]
            exact ih (fun x hx => hcs x (by simp [hx])) _
      obtain ⟨out, hout⟩ := hok feed (h feed hp) (0, db)
      rw [hout]
      refine ⟨_, rfl, fun hfalse => ?_⟩
      exact absurd hfalse hf

/-- Under non-null release names and bodies, the release phase completes, with
a zero count when the fetch failed or came back empty. -/
theorem releases_phase_ok (env : Env) (now : String) (db : DB)
    (h : ∀ feed, env.releases = some feed → ∀ r ∈ feed, r.name ≠ none ∧ r.body ≠ none) :
    ∃ out, fetch_and_store_releases env now db = .ok out ∧
      (feedFalsy env.releases = true → out.1 = 0) := by
  rw [fetch_and_store_releases]
  cases hp : env.releases with
  | none => exact ⟨_, rfl, fun _ => rfl⟩
  | some feed =>
    simp only []
    by_cases hf : feed.isEmpty
    · rw [if_pos hf]
      exact ⟨_, rfl, fun _ => rfl⟩
    · rw [if_neg hf]
      have hok : ∀ (rs : List RawRelease),
          (∀ r ∈ rs, r.name ≠ none ∧ r.body ≠ none) → ∀ (acc : Nat × DB),
          ∃ out, rs.foldl (releaseStep now) (.ok acc) = .ok out := by
        intro rs
        induction rs with
        | nil => intro _ acc; exact ⟨acc, rfl⟩
        | cons r rest ih =>
          intro hrs acc
          rw [List.foldl_cons]
          obtain ⟨hn, hb⟩ := hrs r (by simp)
          rw [releaseStep]
          cases hpr : _process_release r with
          | none =>
            exfalso
            rw [_process_release] at hpr
            cases hnn : r.name with
            | none => exact hn hnn
            | some nm =>
              cases hbb : r.body with
              | none => exact hb hbb
              | some bd => rw [hnn, hbb] at hpr; cases hpr
          | some d =>
            simp only [bind, Except.bind, hpr]
            exact ih (fun x hx => hrs x (by simp [hx])) _
      obtain ⟨out, hout⟩ := hok feed (h feed hp) (0, db)
      rw [hout]
      refine ⟨_, rfl, fun hfalse => ?_⟩
      exact absurd hfalse hf

/-- **C7.** Partial-failure tolerance of the full sync: whenever the comment
URLs parse and the releases carry non-null names/bodies (so no per-record
parser slip interferes), `sync_all_data` returns counts normally, each phase
whose remote fetch failed (or returned nothing) contributing zero; and the
only raising startup condition is the missing credential. -/
theorem claim_C7 :
    (∀ env now db,
      (∀ feed, env.comments = some feed → ∀ c ∈ feed,
        (pyIntOfStr (((splitChar '/' c.issue_url.data).getLast?).getD [])).isSome = true) →
      (∀ feed, env.releases = some feed → ∀ r ∈ feed, r.name ≠ none ∧ r.body ≠ none) →
      ∃ res db' tr, sync_all_data env now db = .ok (res, db', tr) ∧
        (feedFalsy env.pulls = true → res.pull_requests = 0) ∧
        (feedFalsy (env.issuesAt none) = true → res.issues = 0) ∧
        (feedFalsy env.comments = true → res.comments = 0) ∧
        (feedFalsy env.releases = true → res.releases = 0) ∧
        ((∀ n, env.prReviews n = none) → res.reviews = 0) ∧
        ((∀ n, env.prDetail n = none) → res.additions_deletions_fetched = 0)) ∧
    (∀ token, pipelineStartup token =
        .error "GITHUB_TOKEN not found in environment variables" ↔
      optStrTruthy token = false) := by
  constructor
  · intro env now db hcom hrel
    obtain ⟨out4, hout4, hz4⟩ :=
      comments_phase_ok env now
        (fetch_and_store_reviews_for_all_prs env now
          (fetch_and_store_issues env now "all"
            (fetch_and_store_pull_requests env now "all" db).2.1).2.1).2.1 hcom
    obtain ⟨out5, hout5, hz5⟩ := releases_phase_ok env now out4.2.1 hrel
    rw [sync_all_data]
    simp only [bind, Except.bind, hout4, hout5, pure, Except.pure]
    refine ⟨_, _, _, rfl, ?_, ?_, ?_, ?_, ?_, ?_⟩
    · intro h
      exact pr_phase_zero env now "all" db h
    · intro h
      exact issue_phase_zero env now "all" _ h
    · intro h
      exact hz4 h
    · intro h
      exact hz5 h
    · intro h
      exact reviews_phase_zero env now _ h
    · intro h
      exact add_del_phase_zero env now _ h
  · intro token
    rw [pipelineStartup]
    constructor
    · intro h
      by_contra hc
      rw [if_pos (by simpa using hc)] at h
      cases h
    · intro h
      rw [if_neg (by simp [h])]

/-- Witness for C7: the all-failing environment over the empty database — the
run returns, all six counts are zero, and the missing token is the error. -/
theorem claim_C7_witness :
    ((∀ feed, envAllFail.comments = some feed → ∀ c ∈ feed,
        (pyIntOfStr (((splitChar '/' c.issue_url.data).getLast?).getD [])).isSome = true) ∧
     (∀ feed, envAllFail.releases = some feed → ∀ r ∈ feed, r.name ≠ none ∧ r.body ≠ none)) ∧
    (∃ res db' tr, sync_all_data envAllFail "2024-06-03T00:00:00" DB.empty =
        .ok (res, db', tr) ∧
      (feedFalsy envAllFail.pulls = true → res.pull_requests = 0) ∧
      (feedFalsy (envAllFail.issuesAt none) = true → res.issues = 0) ∧
      (feedFalsy envAllFail.comments = true → res.comments = 0) ∧
      (feedFalsy envAllFail.releases = true → res.releases = 0) ∧
      ((∀ n, envAllFail.prReviews n = none) → res.reviews = 0) ∧
      ((∀ n, envAllFail.prDetail n = none) → res.additions_deletions_fetched = 0)) ∧
    (pipelineStartup none = .error "GITHUB_TOKEN not found in environment variables" ↔
      optStrTruthy none = false) := by
  refine ⟨⟨?_, ?_⟩, ?_, claim_C7.2 none⟩
  · intro _ h
    exact nomatch h
  · intro _ h
    exact nomatch h
  · exact claim_C7.1 envAllFail "2024-06-03T00:00:00" DB.empty
      (fun _ h => nomatch h) (fun _ h => nomatch h)

/-- The metadata table of the C9 witness: one prior incremental checkpoint. -/
def c9Meta : List MetaRow :=
  [⟨"last_incremental_sync", "2024-06-01T00:00:00", "2024-06-01T00:00:00"⟩]

/-- Witness for C9 at concrete metadata, keys and clock readings. -/
theorem claim_C9_witness :
    (get_last_sync_time (update_last_sync_time "2024-06-03T00:00:00" "incremental" c9Meta)
      "incremental" = some "2024-06-03T00:00:00") ∧
    ("database_version" ≠ "last_" ++ "incremental" ++ "_sync" ∧
      get_metadata (update_last_sync_time "2024-06-03T00:00:00" "incremental" c9Meta)
        "database_version" = get_metadata c9Meta "database_version") ∧
    (get_last_sync_time c9Meta "incremental" = some "2024-06-01T00:00:00" ∧
      ("2024-06-01T00:00:00" : String).data ≤ ("2024-06-03T00:00:00" : String).data ∧
      (∃ v, get_last_sync_time
          (update_last_sync_time "2024-06-03T00:00:00" "incremental" c9Meta)
          "incremental" = some v ∧ ("2024-06-01T00:00:00" : String).data ≤ v.data)) ∧
    (∃ res db' tr, sync_incremental envAllFail "2024-06-03T00:00:00" DB.empty =
        .ok (res, db', tr) ∧
      db'.metadata =
        update_last_sync_time "2024-06-03T00:00:00" "incremental" DB.empty.metadata) := by
  refine ⟨claim_C9.1 "2024-06-03T00:00:00" "incremental" c9Meta,
    ⟨by decide, claim_C9.2.1 "2024-06-03T00:00:00" "incremental" c9Meta
      "database_version" (by decide)⟩,
    ⟨by decide, by decide, claim_C9.2.2.1 "2024-06-03T00:00:00" "incremental" c9Meta
      "2024-06-01T00:00:00" (by decide) (by decide)⟩, ?_⟩
  rcases hr : sync_incremental envAllFail "2024-06-03T00:00:00" DB.empty with e | ⟨res, db', tr⟩
  · exfalso
    have hnone : (sync_incremental envAllFail "2024-06-03T00:00:00" DB.empty).toOption =
        none := by rw [hr]; rfl
    have hsome : (sync_incremental envAllFail "2024-06-03T00:00:00" DB.empty).toOption ≠
        none := by decide
    exact hsome hnone
  · exact ⟨res, db', tr, rfl,
      claim_C9.2.2.2 envAllFail "2024-06-03T00:00:00" DB.empty res db' tr hr⟩

end Dashboard
